import Mathlib

/-!
Verification development for the natural-language-to-SQL subsystem of the
fashion-chatbot repository (`app/services/sql_cache.py`,
`app/services/sql_query_plan.py`, `app/services/sql_validator.py`,
`app/services/sql_agent_v2.py`).

The Python sources are shallowly embedded: pure functions become Lean
functions, Python `int` becomes `Int`, Python exceptions become
`Except String`, Python `dict` becomes an insertion-ordered association
list, and wall-clock timestamps become explicit `Nat` parameters.
-/

namespace FashionChatbot

/-! ## Python string primitives -/

/-- Characters Python `str.strip()` removes. -/
def isPySpace (c : Char) : Bool :=
  c = ' ' || c = '\t' || c = '\n' || c = '\r' || c = '\x0c' || c = '\x0b'

def pyLStripChars (cs : List Char) : List Char := cs.dropWhile isPySpace

def pyRStripChars (cs : List Char) : List Char :=
  (cs.reverse.dropWhile isPySpace).reverse

/-- Python `str.strip()` (whitespace form). -/
def pyStrip (s : String) : String :=
  ⟨pyRStripChars (pyLStripChars s.data)⟩

/-- Python `str.rstrip(";")`. -/
def pyRStripSemi (s : String) : String :=
  ⟨(s.data.reverse.dropWhile (· = ';')).reverse⟩

/-- Python `str.lower()` (ASCII case folding, which is all these inputs use). -/
def pyLower (s : String) : String := ⟨s.data.map Char.toLower⟩

/-- Python `str.split()` with no argument: split on runs of whitespace,
discarding empty fields. -/
def pySplitWs (cs : List Char) : List (List Char) :=
  (cs.splitOnP isPySpace).filter (· ≠ [])

/-- Python `" ".join(words)`. -/
def joinSpace (ws : List (List Char)) : String :=
  ⟨(ws.intersperse [' ']).flatten⟩

/-! ## MD5 (faithful model of `hashlib.md5(...).hexdigest()`) -/

/-- Truncate to 32 bits. -/
def u32 (n : Nat) : Nat := n % 4294967296

/-- 32-bit left rotation. -/
def rotl32 (x c : Nat) : Nat :=
  Nat.lor (u32 (x <<< c)) (x >>> (32 - c))

/-- 32-bit complement. -/
def compl32 (x : Nat) : Nat := Nat.xor x 4294967295

/-- UTF-8 encoding of one code point (what Python `str.encode("utf-8")`
does per character). -/
def charUtf8 (ch : Char) : List Nat :=
  let c := ch.toNat
  if c < 128 then [c]
  else if c < 2048 then [192 + c / 64, 128 + c % 64]
  else if c < 65536 then [224 + c / 4096, 128 + (c / 64) % 64, 128 + c % 64]
  else [240 + c / 262144, 128 + (c / 4096) % 64, 128 + (c / 64) % 64, 128 + c % 64]

def utf8Bytes (s : String) : List Nat := s.data.flatMap charUtf8

/-- Little-endian 8-byte encoding. -/
def le8 (n : Nat) : List Nat := (List.range 8).map (fun i => (n >>> (8 * i)) % 256)

/-- Little-endian 4-byte encoding. -/
def le4 (n : Nat) : List Nat := (List.range 4).map (fun i => (n >>> (8 * i)) % 256)

/-- MD5 padding: 0x80, zeros to 56 mod 64, then the bit length. -/
def md5Pad (msg : List Nat) : List Nat :=
  let len := msg.length
  let z := (120 - ((len + 1) % 64)) % 64
  msg ++ [128] ++ List.replicate z 0 ++ le8 ((len * 8) % 18446744073709551616)

/-- Split into 64-byte blocks (fuel-based so it reduces definitionally;
the fuel always suffices because each step drops 64 bytes). -/
def chunks64Go : Nat → List Nat → List (List Nat)
  | 0, _ => []
  | _ + 1, [] => []
  | fuel + 1, l => l.take 64 :: chunks64Go fuel (l.drop 64)

def chunks64 (l : List Nat) : List (List Nat) :=
  chunks64Go (l.length / 64 + 1) l

/-- 16 little-endian 32-bit words of one block. -/
def md5Words (block : List Nat) : List Nat :=
  (List.range 16).map (fun j =>
    block.getD (4 * j) 0 + 256 * block.getD (4 * j + 1) 0 +
    65536 * block.getD (4 * j + 2) 0 + 16777216 * block.getD (4 * j + 3) 0)

def md5K : List Nat :=
  [0xd76aa478, 0xe8c7b756, 0x242070db, 0xc1bdceee,
   0xf57c0faf, 0x4787c62a, 0xa8304613, 0xfd469501,
   0x698098d8, 0x8b44f7af, 0xffff5bb1, 0x895cd7be,
   0x6b901122, 0xfd987193, 0xa679438e, 0x49b40821,
   0xf61e2562, 0xc040b340, 0x265e5a51, 0xe9b6c7aa,
   0xd62f105d, 0x02441453, 0xd8a1e681, 0xe7d3fbc8,
   0x21e1cde6, 0xc33707d6, 0xf4d50d87, 0x455a14ed,
   0xa9e3e905, 0xfcefa3f8, 0x676f02d9, 0x8d2a4c8a,
   0xfffa3942, 0x8771f681, 0x6d9d6122, 0xfde5380c,
   0xa4beea44, 0x4bdecfa9, 0xf6bb4b60, 0xbebfbc70,
   0x289b7ec6, 0xeaa127fa, 0xd4ef3085, 0x04881d05,
   0xd9d4d039, 0xe6db99e5, 0x1fa27cf8, 0xc4ac5665,
   0xf4292244, 0x432aff97, 0xab9423a7, 0xfc93a039,
   0x655b59c3, 0x8f0ccc92, 0xffeff47d, 0x85845dd1,
   0x6fa87e4f, 0xfe2ce6e0, 0xa3014314, 0x4e0811a1,
   0xf7537e82, 0xbd3af235, 0x2ad7d2bb, 0xeb86d391]

def md5S : List Nat :=
  [7, 12, 17, 22, 7, 12, 17, 22, 7, 12, 17, 22, 7, 12, 17, 22,
   5, 9, 14, 20, 5, 9, 14, 20, 5, 9, 14, 20, 5, 9, 14, 20,
   4, 11, 16, 23, 4, 11, 16, 23, 4, 11, 16, 23, 4, 11, 16, 23,
   6, 10, 15, 21, 6, 10, 15, 21, 6, 10, 15, 21, 6, 10, 15, 21]

def md5F (i b c d : Nat) : Nat :=
  if i < 16 then Nat.lor (Nat.land b c) (Nat.land (compl32 b) d)
  else if i < 32 then Nat.lor (Nat.land d b) (Nat.land (compl32 d) c)
  else if i < 48 then Nat.xor b (Nat.xor c d)
  else Nat.xor c (Nat.lor b (compl32 d))

def md5G (i : Nat) : Nat :=
  if i < 16 then i
  else if i < 32 then (5 * i + 1) % 16
  else if i < 48 then (3 * i + 5) % 16
  else (7 * i) % 16

def md5Step (m : List Nat) (st : Nat × Nat × Nat × Nat) (i : Nat) :
    Nat × Nat × Nat × Nat :=
  let (a, b, c, d) := st
  let f := u32 (md5F i b c d + a + md5K.getD i 0 + m.getD (md5G i) 0)
  (d, u32 (b + rotl32 f (md5S.getD i 0)), b, c)

def md5Block (st : Nat × Nat × Nat × Nat) (block : List Nat) :
    Nat × Nat × Nat × Nat :=
  let m := md5Words block
  let (a, b, c, d) := (List.range 64).foldl (md5Step m) st
  (u32 (st.1 + a), u32 (st.2.1 + b), u32 (st.2.2.1 + c), u32 (st.2.2.2 + d))

/-- MD5 digest (16 bytes) of a byte string. -/
def md5Bytes (msg : List Nat) : List Nat :=
  let st := (chunks64 (md5Pad msg)).foldl md5Block
    (0x67452301, 0xefcdab89, 0x98badcfe, 0x10325476)
  le4 st.1 ++ le4 st.2.1 ++ le4 st.2.2.1 ++ le4 st.2.2.2

def hexDigitChars : List Char :=
  (List.range 16).map (fun d => Char.ofNat (if d < 10 then 48 + d else 87 + d))

def byteToHex (b : Nat) : List Char :=
  [hexDigitChars.getD (b / 16 % 16) '0', hexDigitChars.getD (b % 16) '0']

/-- `hashlib.md5(s.encode("utf-8")).hexdigest()`. -/
def md5HexOfString (s : String) : String :=
  ⟨(md5Bytes (utf8Bytes s)).flatMap byteToHex⟩

/-! ## `app/services/sql_cache.py` — SQLQueryCache -/

/-- `re.sub(r'--.*$', '', sql, flags=re.MULTILINE)`: drop from `--` to the
end of the line (the newline itself is kept). The boolean state records
whether we are inside a comment. -/
def stripLineCommentsGo : Bool → List Char → List Char
  | _, [] => []
  | true, c :: rest =>
      if c = '\n' then c :: stripLineCommentsGo false rest
      else stripLineCommentsGo true rest
  | false, '-' :: '-' :: rest => stripLineCommentsGo true rest
  | false, c :: rest => c :: stripLineCommentsGo false rest

def stripLineComments (cs : List Char) : List Char := stripLineCommentsGo false cs

/-- Scan for the closing `*/`, returning the remainder after it. -/
def findBlockClose : List Char → Option (List Char)
  | '*' :: '/' :: rest => some rest
  | _ :: rest => findBlockClose rest
  | [] => none

/-- `re.sub(r'/\*.*?\*/', '', sql, flags=re.DOTALL)`: remove each `/*`
up to the nearest `*/`; an unterminated `/*` is left in place (no match).
Fuel-based so it reduces definitionally; every step consumes a character. -/
def stripBlockCommentsGo : Nat → List Char → List Char
  | 0, l => l
  | _ + 1, [] => []
  | fuel + 1, '/' :: '*' :: rest =>
      match findBlockClose rest with
      | some rest' => stripBlockCommentsGo fuel rest'
      | none => '/' :: '*' :: stripBlockCommentsGo fuel rest
  | fuel + 1, c :: rest => c :: stripBlockCommentsGo fuel rest

def stripBlockComments (cs : List Char) : List Char :=
  stripBlockCommentsGo cs.length cs

/-- `SQLQueryCache._normalize_sql`. -/
def normalizeSql (sql : String) : String :=
  let cs : List Char := stripBlockComments (stripLineComments sql.data)
  joinSpace (pySplitWs (pyRStripSemi (pyStrip (pyLower ⟨cs⟩))).data)

/-- `SQLQueryCache.get_cache_key`: md5 of `f"{normalized}:{customer_id}"`. -/
def getCacheKey (sql : String) (customer_id : Int) : String :=
  md5HexOfString (normalizeSql sql ++ ":" ++ toString customer_id)

/-- The in-memory cache: an insertion-ordered association list standing for
the Python dict `cache`, plus the configuration and counters. Entries are
`(key, results, stored-at timestamp)`; results are kept abstract (`α`),
mirroring `list[dict]` which the cache never inspects. -/
structure SQLQueryCache (α : Type) where
  cache : List (String × α × Nat)
  ttl : Nat
  maxSize : Nat
  hits : Nat
  misses : Nat

/-- `SQLQueryCache(ttl_seconds, max_size)` constructor. -/
def mkCache (α : Type) (ttl : Nat := 300) (maxSize : Nat := 1000) :
    SQLQueryCache α :=
  { cache := [], ttl := ttl, maxSize := maxSize, hits := 0, misses := 0 }

/-- Dict lookup (keys are unique by construction). -/
def lookupEntry {α : Type} : List (String × α × Nat) → String → Option (α × Nat)
  | [], _ => none
  | (k, v) :: rest, key => if k = key then some v else lookupEntry rest key

/-- Dict assignment: overwrite in place, else append (Python dicts keep the
original insertion position on overwrite). -/
def setEntry {α : Type} : List (String × α × Nat) → String → α × Nat →
    List (String × α × Nat)
  | [], key, v => [(key, v)]
  | (k, w) :: rest, key, v =>
      if k = key then (key, v) :: rest else (k, w) :: setEntry rest key v

/-- `del cache[key]`. -/
def removeKey {α : Type} (entries : List (String × α × Nat)) (key : String) :
    List (String × α × Nat) :=
  entries.filter (fun e => e.1 ≠ key)

/-- `min(cache.keys(), key=lambda k: cache[k][1])`: the first key holding the
minimal timestamp, in insertion order. -/
def oldestKeyGo {α : Type} : List (String × α × Nat) → String → Nat → String
  | [], k, _ => k
  | (k', _, t') :: rest, k, t =>
      if t' < t then oldestKeyGo rest k' t' else oldestKeyGo rest k t

def oldestKey {α : Type} : List (String × α × Nat) → Option String
  | [] => none
  | (k, _, t) :: rest => some (oldestKeyGo rest k t)

/-- `SQLQueryCache.get` at explicit time `now`; returns the result plus the
updated cache (counters, expiry eviction). -/
def cacheGet {α : Type} (c : SQLQueryCache α) (sql : String)
    (customer_id : Int) (now : Nat) : Option α × SQLQueryCache α :=
  let key := getCacheKey sql customer_id
  match lookupEntry c.cache key with
  | some (results, ts) =>
      if now - ts < c.ttl then
        (some results, { c with hits := c.hits + 1 })
      else
        (none, { c with cache := removeKey c.cache key, misses := c.misses + 1 })
  | none => (none, { c with misses := c.misses + 1 })

/-- `SQLQueryCache.set` at explicit time `now`. -/
def cacheSet {α : Type} (c : SQLQueryCache α) (sql : String)
    (customer_id : Int) (results : α) (now : Nat) : SQLQueryCache α :=
  let key := getCacheKey sql customer_id
  let entries := setEntry c.cache key (results, now)
  let entries :=
    if c.maxSize < entries.length then
      match oldestKey entries with
      | some k => removeKey entries k
      | none => entries
    else entries
  { c with cache := entries }

/-- Python `needle in haystack` on strings. -/
def containsSub (n : List Char) : List Char → Bool
  | [] => n.isEmpty
  | c :: t => n.isPrefixOf (c :: t) || containsSub n t

/-- `SQLQueryCache.clear_for_customer`: drop every entry whose key contains
the substring `":{customer_id}"`. -/
def clearForCustomer {α : Type} (c : SQLQueryCache α) (customer_id : Int) :
    SQLQueryCache α :=
  let needle := ":" ++ toString customer_id
  { c with cache := c.cache.filter (fun e => !containsSub needle.data e.1.data) }

/-! ## JSON values and Python primitives for `sql_query_plan.py` -/

/-- JSON-ish Python values as they appear in LLM payloads. Floats are not
modeled (no claim touches non-integral numbers). -/
inductive JValue where
  | null
  | bool (b : Bool)
  | int (n : Int)
  | str (s : String)
  | arr (xs : List JValue)
  | obj (fields : List (String × JValue))
deriving Repr

/-- Python truthiness of a JSON value. -/
def jFalsy : JValue → Bool
  | .null => true
  | .bool b => !b
  | .int n => n == 0
  | .str s => s.isEmpty
  | .arr xs => xs.isEmpty
  | .obj fs => fs.isEmpty

mutual
/-- Python `==` between JSON values (`True == 1`, dicts order-insensitive). -/
def pyEq : JValue → JValue → Bool
  | .null, .null => true
  | .bool a, .bool b => a == b
  | .bool a, .int n => ((if a then (1 : Int) else 0) == n)
  | .int n, .bool a => (n == (if a then (1 : Int) else 0))
  | .int a, .int b => a == b
  | .str a, .str b => a == b
  | .arr xs, .arr ys => pyEqList xs ys
  | .obj fs, .obj gs => fs.length == gs.length && pyObjSub fs gs
  | _, _ => false

def pyEqList : List JValue → List JValue → Bool
  | [], [] => true
  | x :: xs, y :: ys => pyEq x y && pyEqList xs ys
  | _, _ => false

def pyObjSub : List (String × JValue) → List (String × JValue) → Bool
  | [], _ => true
  | (k, v) :: rest, gs => pyFindEq k v gs && pyObjSub rest gs

def pyFindEq : String → JValue → List (String × JValue) → Bool
  | _, _, [] => false
  | k, v, (k', v') :: rest => if k' = k then pyEq v v' else pyFindEq k v rest
end

/-- First-match association lookup (Python dict `get`; keys unique). -/
def assocGet {β : Type} : List (String × β) → String → Option β
  | [], _ => none
  | (k, v) :: rest, key => if k = key then some v else assocGet rest key

/-- Association update: overwrite in place, else append (Python dict
assignment keeps the original insertion position on overwrite). -/
def assocSet {β : Type} : List (String × β) → String → β → List (String × β)
  | [], key, v => [(key, v)]
  | (k, w) :: rest, key, v =>
      if k = key then (key, v) :: rest else (k, w) :: assocSet rest key v

def assocHas {β : Type} (l : List (String × β)) (key : String) : Bool :=
  (assocGet l key).isSome

mutual
/-- Python `str(x)` for JSON values (exact on scalars; containers rendered
with `repr` elements as Python does). -/
def pyStr : JValue → String
  | .null => "None"
  | .bool b => if b then "True" else "False"
  | .int n => toString n
  | .str s => s
  | .arr xs => "[" ++ pyReprJoin xs ++ "]"
  | .obj _ => "{...}"

def pyRepr : JValue → String
  | .str s => "'" ++ s ++ "'"
  | v => pyStr v

def pyReprJoin : List JValue → String
  | [] => ""
  | [x] => pyRepr x
  | x :: rest => pyRepr x ++ ", " ++ pyReprJoin rest
end

/-- Digits with Python's single-underscore-between-digits rule
(`int("1_0") == 10`). -/
def digitsUSGo : Nat → List Char → Option Nat
  | acc, [] => some acc
  | acc, '_' :: d :: rest =>
      if d.isDigit then digitsUSGo (acc * 10 + (d.toNat - 48)) rest else none
  | acc, d :: rest =>
      if d.isDigit then digitsUSGo (acc * 10 + (d.toNat - 48)) rest else none

def digitsToNat : List Char → Option Nat
  | [] => none
  | d :: rest =>
      if d.isDigit then digitsUSGo (d.toNat - 48) rest else none

/-- Python `int(s)` on a string: strip whitespace, optional sign, digits. -/
def pyIntOfString (s : String) : Option Int :=
  match (pyStrip s).data with
  | '-' :: ds => (digitsToNat ds).map (fun n => -(n : Int))
  | '+' :: ds => (digitsToNat ds).map (fun n => (n : Int))
  | ds => (digitsToNat ds).map (fun n => (n : Int))

/-- Python `int(x)` on a JSON value; `none` models the raised
`TypeError`/`ValueError`. -/
def pyInt : JValue → Option Int
  | .int n => some n
  | .bool b => some (if b then 1 else 0)
  | .str s => pyIntOfString s
  | _ => none

/-! ## Identifier and expression regexes of `sql_query_plan.py` -/

def isIdentStart (c : Char) : Bool := c.isAlpha || c = '_'

def isIdentCont (c : Char) : Bool := c.isAlpha || c.isDigit || c = '_'

/-- `_IDENT_RE = ^[A-Za-z_][A-Za-z0-9_]*$` (full match). -/
def matchIdentRe (s : String) : Bool :=
  match s.data with
  | [] => false
  | c :: rest => isIdentStart c && rest.all isIdentCont

/-- `_safe_ident`: strip, then require the identifier grammar. -/
def safeIdent (value : String) : Except String String :=
  let token := pyStrip value
  if matchIdentRe token then .ok token
  else .error s!"Invalid SQL identifier: {value}"

/-- Case-insensitive literal prefix match; `lit` is given lowercase. -/
def ciPrefix : List Char → List Char → Option (List Char)
  | [], cs => some cs
  | _ :: _, [] => none
  | l :: ls, c :: cs => if c.toLower = l then ciPrefix ls cs else none

/-- Tail of `[\+\-]\s*INTERVAL\s*'.+'` inside pattern 1, after the quote:
a nonempty newline-free body, a closing quote, then only whitespace
(`\s*$`). The flag records whether the body is nonempty so far. -/
def intervalTailGo : Bool → List Char → Bool
  | _, [] => false
  | b, '\'' :: rest => (b && rest.all isPySpace) || intervalTailGo true rest
  | _, '\n' :: _ => false
  | _, _ :: rest => intervalTailGo true rest

/-- Pattern 1 continuation after the base keyword:
`(\s*[\+\-]\s*INTERVAL\s*'.+')?\s*$`. -/
def sqlExprP1Tail (rest : List Char) : Bool :=
  rest.all isPySpace ||
    (match rest.dropWhile isPySpace with
     | c :: r2 =>
         (c = '+' || c = '-') &&
           (match ciPrefix "interval".data (r2.dropWhile isPySpace) with
            | some r4 =>
                (match r4.dropWhile isPySpace with
                 | '\'' :: r6 => intervalTailGo false r6
                 | _ => false)
            | none => false)
     | [] => false)

/-- Pattern 1: `^(NOW\(\)|CURRENT_TIMESTAMP|CURRENT_DATE|CURRENT_TIME)
(\s*[\+\-]\s*INTERVAL\s*'.+')?\s*$`, case-insensitive. -/
def matchSqlExprP1 (cs : List Char) : Bool :=
  ["now()", "current_timestamp", "current_date", "current_time"].any
    (fun kw =>
      match ciPrefix kw.data cs with
      | some rest => sqlExprP1Tail rest
      | none => false)

/-- Tail of pattern 2 after the opening quote: `.+'$` (the closing quote is
the final character, the body nonempty and newline-free). -/
def p2TailGo : Bool → List Char → Bool
  | b, ['\''] => b
  | _, [] => false
  | _, '\n' :: _ => false
  | _, _ :: rest => p2TailGo true rest

/-- Pattern 2: `^INTERVAL\s*'.+'$`, case-insensitive. -/
def matchSqlExprP2 (cs : List Char) : Bool :=
  match ciPrefix "interval".data cs with
  | some rest =>
      (match rest.dropWhile isPySpace with
       | '\'' :: r => p2TailGo false r
       | _ => false)
  | none => false

/-- Pattern 3: `^DATE_TRUNC\s*\(.*\)$`, case-insensitive. -/
def matchSqlExprP3 (cs : List Char) : Bool :=
  match ciPrefix "date_trunc".data cs with
  | some rest =>
      (match rest.dropWhile isPySpace with
       | '(' :: r =>
           !r.isEmpty && r.getLast? = some ')' && r.dropLast.all (· ≠ '\n')
       | _ => false)
  | none => false

/-- `_is_sql_expression(value)`: any pattern matches `value.strip()`. -/
def isSqlExpression (value : String) : Bool :=
  let cs := (pyStrip value).data
  matchSqlExprP1 cs || matchSqlExprP2 cs || matchSqlExprP3 cs

/-- `[}]+$`. -/
def reClose (cs : List Char) : Bool := !cs.isEmpty && cs.all (· = '}')

/-- `[^}]+[}]+$` with backtracking. -/
def reMid : List Char → Bool
  | [] => false
  | c :: rest => c ≠ '}' && (reClose rest || reMid rest)

/-- `^[{]+[^}]+[}]+$` with backtracking: the placeholder pattern of
`_coerce_filter_value`. -/
def rePlaceholder : List Char → Bool
  | [] => false
  | c :: rest => c = '{' && (reMid rest || rePlaceholder rest)

/-- `_coerce_filter_value`: block placeholders, keep SQL expressions,
convert all-digit strings to ints. -/
def coerceFilterValue : JValue → Except String JValue
  | .str s =>
      let stripped := pyStrip s
      if rePlaceholder stripped.data then
        .error s!"Filter value contains unresolved placeholder: {s}. Use the literal integer from scope_rules."
      else if isSqlExpression s then .ok (.str s)
      else
        let core := stripped.data.dropWhile (· = '-')
        if !core.isEmpty && core.all Char.isDigit then
          match pyIntOfString stripped with
          | some n => .ok (.int n)
          | none => .ok (.str s)
        else .ok (.str s)
  | v => .ok v

/-- `_literal`: render a value as a SQL literal. -/
def pyLiteral : JValue → Except String String
  | .null => .ok "NULL"
  | .bool b => .ok (if b then "TRUE" else "FALSE")
  | .int n => .ok (toString n)
  | .str s =>
      if isSqlExpression s then .ok s
      else .ok ("'" ++ s.replace "'" "''" ++ "'")
  | _ => .error "Unsupported filter literal type"

/-! ## Plan model (`sql_query_plan.py` Pydantic classes) -/

structure JoinCondition where
  left_table : String
  left_column : String
  right_table : String
  right_column : String
deriving Repr, DecidableEq

structure SelectField where
  table : String
  column : String
  aliasName : Option String := none
deriving Repr, DecidableEq

/-- `func` is one of count/sum/avg/min/max (validated at construction). -/
structure AggregateSpec where
  func : String
  table : Option String := none
  column : String := "*"
  aliasName : Option String := none
  distinct : Bool := false
deriving Repr, DecidableEq

structure JoinSpec where
  table : String
  aliasName : Option String := none
  join_type : String := "inner"
  onConds : List JoinCondition := []
deriving Repr, DecidableEq

structure FilterSpec where
  table : String
  column : String
  operator : String
  value : JValue := .null
deriving Repr

structure HavingSpec where
  func : String
  table : Option String := none
  column : String := "*"
  operator : String
  value : JValue
deriving Repr

structure GroupByField where
  table : String
  column : String
deriving Repr, DecidableEq

structure SortSpec where
  table : String
  column : String
  direction : String := "asc"
deriving Repr, DecidableEq

structure QueryPlan where
  base_table : String
  base_alias : Option String := none
  select : List SelectField := []
  aggregates : List AggregateSpec := []
  joins : List JoinSpec := []
  filters : List FilterSpec := []
  group_by : List GroupByField := []
  having : List HavingSpec := []
  order_by : List SortSpec := []
  limit : Int := 50
  offset : Option Int := none
deriving Repr

/-- The `QueryPlan._vlimit` field validator: `None` becomes the default 50,
everything else is clamped into `[1, 50]`. -/
def vlimit (v : Option Int) : Int :=
  match v with
  | none => 50
  | some n => max 1 (min n 50)

/-- Python falsiness of an optional string (`None` and `""`). -/
def optFalsy (s : Option String) : Bool := s.getD "" = ""

/-- `x or y` on optional strings. -/
def orElseStr (x : Option String) (y : String) : String :=
  match x with
  | some s => if s = "" then y else s
  | none => y

/-! ## Alias map and scope injection -/

/-- `_build_alias_map`: lower-cased table name to the alias actually used. -/
def buildAliasMap (plan : QueryPlan) : List (String × String) :=
  plan.joins.foldl
    (fun am join => assocSet am (pyLower join.table) (orElseStr join.aliasName join.table))
    (assocSet [] (pyLower plan.base_table) (orElseStr plan.base_alias plan.base_table))

/-- `_resolve`. -/
def resolveRef (am : List (String × String)) (table_ref : String) : String :=
  match assocGet am (pyLower table_ref) with
  | some a => a
  | none => table_ref

/-- `_qcol`: qualified column via validated identifiers. -/
def qcol (am : List (String × String)) (table_ref column : String) :
    Except String String := do
  let t ← safeIdent (resolveRef am table_ref)
  let c ← safeIdent column
  pure (t ++ "." ++ c)

/-- `tables_in_plan` (a set; list membership is what is used). -/
def tablesInPlan (plan : QueryPlan) : List String :=
  (pyLower plan.base_table) :: plan.joins.map (fun j => (pyLower j.table))

/-- `_has_filter`. -/
def hasFilter (plan : QueryPlan) (table_ref column operator : String)
    (value : JValue) : Bool :=
  let am := buildAliasMap plan
  let resolved := resolveRef am table_ref
  plan.filters.any (fun item =>
    (pyLower (resolveRef am item.table)) == (pyLower resolved) &&
    (pyLower item.column) == (pyLower column) &&
    item.operator == operator &&
    pyEq item.value value)

/-- The join `ticket_item ti ON t.id = ti.ticket_id` that
`inject_mandatory_scope` inserts. -/
def ticketItemJoin : JoinSpec :=
  { table := "ticket_item", aliasName := some "ti", join_type := "inner",
    onConds := [⟨"t", "id", "ti", "ticket_id"⟩] }

/-- The join `product p ON ti.product_id = p.id` that
`inject_mandatory_scope` appends. -/
def productJoin : JoinSpec :=
  { table := "product", aliasName := some "p", join_type := "inner",
    onConds := [⟨"ti", "product_id", "p", "id"⟩] }

/-- The two base-alias auto-fixes opening `inject_mandatory_scope`. -/
def injectFixAliases (sc : QueryPlan) : QueryPlan :=
  let sc :=
    if (pyLower sc.base_table) = "ticket" && optFalsy sc.base_alias then
      { sc with base_alias := some "t" }
    else sc
  if (pyLower sc.base_table) = "ticket_item" && optFalsy sc.base_alias then
    { sc with base_alias := some "ti" }
  else sc

/-- The forced `ticket` base (plus auto-added joins) for `ticket_item` /
`product` base tables; `tables` is the table set computed before the
override, as in the source. -/
def injectForceBase (sc : QueryPlan) (tables : List String) : QueryPlan :=
  if (pyLower sc.base_table) = "ticket_item" ||
      (pyLower sc.base_table) = "product" then
    let sc := { sc with base_table := "ticket", base_alias := some "t" }
    if tables.contains "product" || tables.contains "brand" ||
        tables.contains "color" || tables.contains "size" then
      let sc :=
        if !sc.joins.any (fun j => (pyLower j.table) == "ticket_item") then
          { sc with joins := ticketItemJoin :: sc.joins }
        else sc
      if !sc.joins.any (fun j => (pyLower j.table) == "product") then
        { sc with joins := sc.joins ++ [productJoin] }
      else sc
    else sc
  else sc

/-- The filter cleanup: drop everything except `customer_id` filters. -/
def injectCleanFilters (sc : QueryPlan) : QueryPlan :=
  { sc with filters := (sc.filters.filter
      (fun f => (pyLower f.column) == "customer_id")) }

/-- Ensure the `ticket.customer_id` filter when ticket tables appear. -/
def injectTicketScope (sc : QueryPlan) (tables : List String)
    (am : List (String × String)) (customer_id : Option Int) :
    Except String QueryPlan :=
  if tables.contains "ticket" || tables.contains "ticket_item" then
    match customer_id with
    | none => Except.error "Missing customer scope"
    | some c =>
        let ticket_ref := (assocGet am "ticket").getD "t"
        if !hasFilter sc ticket_ref "customer_id" "=" (.int c) then
          Except.ok { sc with filters := sc.filters ++
            [{ table := ticket_ref, column := "customer_id",
               operator := "=", value := .int c }] }
        else Except.ok sc
  else Except.ok sc

/-- Ensure the `customer.id` filter. -/
def injectCustomerScope (sc : QueryPlan) (tables : List String)
    (am : List (String × String)) (customer_id : Option Int) : QueryPlan :=
  match customer_id with
  | some c =>
      if tables.contains "customer" then
        let cust_ref := (assocGet am "customer").getD "customer"
        if !hasFilter sc cust_ref "id" "=" (.int c) then
          { sc with filters := sc.filters ++
            [{ table := cust_ref, column := "id", operator := "=",
               value := .int c }] }
        else sc
      else sc
  | none => sc

/-- Ensure the `user.id` filter. -/
def injectUserScope (sc : QueryPlan) (tables : List String)
    (am : List (String × String)) (user_id : Option Int) : QueryPlan :=
  match user_id with
  | some u =>
      if tables.contains "user" then
        let user_ref := (assocGet am "user").getD "user"
        if !hasFilter sc user_ref "id" "=" (.int u) then
          { sc with filters := sc.filters ++
            [{ table := user_ref, column := "id", operator := "=",
               value := .int u }] }
        else sc
      else sc
  | none => sc

def injectMandatoryScope (plan : QueryPlan) (customer_id : Option Int)
    (user_id : Option Int) : Except String QueryPlan := do
  let sc := injectFixAliases plan
  let tables := tablesInPlan sc
  let am := buildAliasMap sc
  let sc := injectForceBase sc tables
  let sc := injectCleanFilters sc
  let sc ← injectTicketScope sc tables am customer_id
  let sc := injectCustomerScope sc tables am customer_id
  let sc := injectUserScope sc tables am user_id
  pure sc

/-! ## Aggregate / group-by corrector -/

/-- `non_agg_cols` of `validate_and_fix_group_by`. -/
def nonAggCols (plan : QueryPlan) : List GroupByField :=
  (plan.select.filter (fun s => s.column ≠ "*")).map
    (fun s => GroupByField.mk s.table s.column)

/-- `existing_gb` of `validate_and_fix_group_by`. -/
def existingGB (plan : QueryPlan) : List (String × String) :=
  plan.group_by.map (fun gb => ((pyLower gb.table), (pyLower gb.column)))

/-- `missing` of `validate_and_fix_group_by`. -/
def missingGB (plan : QueryPlan) : List GroupByField :=
  (nonAggCols plan).filter
    (fun col => !(existingGB plan).contains ((pyLower col.table), (pyLower col.column)))

/-- `validate_and_fix_group_by`. -/
def validateAndFixGroupBy (plan : QueryPlan) : QueryPlan :=
  if plan.aggregates.isEmpty then plan
  else if plan.aggregates.any (fun agg => agg.func == "count" || agg.func == "sum")
      && !plan.select.isEmpty then
    { plan with select := [], group_by := [] }
  else if (nonAggCols plan).isEmpty then plan
  else if !(missingGB plan).isEmpty then
    { plan with group_by := plan.group_by ++ missingGB plan }
  else plan

/-! ## SQL builder (`build_sql_from_plan`) -/

/-- `", ".join`. -/
def joinComma (parts : List String) : String := String.intercalate ", " parts

/-- `str.upper()` (ASCII). -/
def pyUpper (s : String) : String := ⟨s.data.map Char.toUpper⟩

def buildSelectPart (am : List (String × String)) (item : SelectField) :
    Except String String := do
  let expr ←
    if item.column = "*" then do
      let t ← safeIdent (resolveRef am item.table)
      pure (t ++ ".*")
    else qcol am item.table item.column
  match item.aliasName with
  | some a =>
      if a = "" then pure expr
      else do
        let av ← safeIdent a
        pure (expr ++ " AS " ++ av)
  | none => pure expr

def buildAggregatePart (plan : QueryPlan) (am : List (String × String))
    (item : AggregateSpec) : Except String String := do
  let target ←
    if item.column = "*" then pure "*"
    else
      let table_ref := orElseStr item.table (orElseStr plan.base_alias plan.base_table)
      qcol am table_ref item.column
  let distinct := if item.distinct then "DISTINCT " else ""
  let expr := pyUpper item.func ++ "(" ++ distinct ++ target ++ ")"
  match item.aliasName with
  | some a =>
      if a = "" then pure expr
      else do
        let av ← safeIdent a
        pure (expr ++ " AS " ++ av)
  | none => pure expr

def buildJoinPart (am : List (String × String)) (join : JoinSpec) :
    Except String String := do
  let alias_sql ←
    match join.aliasName with
    | some a =>
        if a = "" then pure ""
        else do
          let av ← safeIdent a
          pure (" " ++ av)
    | none => pure ""
  if join.onConds.isEmpty then
    Except.error s!"JOIN on {join.table} has no ON conditions."
  else do
    let clauses ← join.onConds.mapM (fun cond => do
      let l ← qcol am cond.left_table cond.left_column
      let r ← qcol am cond.right_table cond.right_column
      pure (l ++ " = " ++ r))
    let tv ← safeIdent join.table
    pure (pyUpper join.join_type ++ " JOIN " ++ tv ++ alias_sql ++ " ON " ++
      String.intercalate " AND " clauses)

def buildWherePart (am : List (String × String)) (item : FilterSpec) :
    Except String String := do
  let lhs ← qcol am item.table item.column
  if item.operator = "in" then
    match item.value with
    | .arr vs =>
        if vs.isEmpty then Except.error "IN filter must have non-empty list."
        else do
          let rendered ← vs.mapM pyLiteral
          pure (lhs ++ " IN (" ++ joinComma rendered ++ ")")
    | _ => Except.error "IN filter must have non-empty list."
  else if item.operator = "not in" then
    match item.value with
    | .arr vs =>
        if vs.isEmpty then Except.error "NOT IN filter must have non-empty list."
        else do
          let rendered ← vs.mapM pyLiteral
          pure (lhs ++ " NOT IN (" ++ joinComma rendered ++ ")")
    | _ => Except.error "NOT IN filter must have non-empty list."
  else if item.operator = "is null" then pure (lhs ++ " IS NULL")
  else if item.operator = "is not null" then pure (lhs ++ " IS NOT NULL")
  else do
    let lit ← pyLiteral item.value
    pure (lhs ++ " " ++ pyUpper item.operator ++ " " ++ lit)

def buildHavingPart (am : List (String × String)) (item : HavingSpec) :
    Except String String := do
  let target ←
    if item.column = "*" then pure "*"
    else
      if optFalsy item.table then Except.error "HAVING aggregate requires table."
      else qcol am (item.table.getD "") item.column
  let lit ← pyLiteral item.value
  pure (pyUpper item.func ++ "(" ++ target ++ ") " ++ pyUpper item.operator ++
    " " ++ lit)

/-- `max(1, min(plan.limit, MAX_LIMIT))`: the value rendered into the
`LIMIT` clause. -/
def sqlLimitValue (plan : QueryPlan) : Int := max 1 (min plan.limit 50)

/-- All parts of the compiled SQL before the `LIMIT` clause. -/
def buildSqlPartsPre (plan : QueryPlan) : Except String (List String) := do
  let am := buildAliasMap plan
  let selParts ← plan.select.mapM (buildSelectPart am)
  let aggParts ← plan.aggregates.mapM (buildAggregatePart plan am)
  let select_parts := selParts ++ aggParts
  let select_parts := if select_parts.isEmpty then ["*"] else select_parts
  let base_alias_sql ←
    match plan.base_alias with
    | some a =>
        if a = "" then pure ""
        else do
          let av ← safeIdent a
          pure (" " ++ av)
    | none => pure ""
  let btv ← safeIdent plan.base_table
  let sql_parts := ["SELECT " ++ joinComma select_parts,
                    "FROM " ++ btv ++ base_alias_sql]
  let joinParts ← plan.joins.mapM (buildJoinPart am)
  let sql_parts := sql_parts ++ joinParts
  let sql_parts ←
    if !plan.filters.isEmpty then do
      let where_clauses ← plan.filters.mapM (buildWherePart am)
      pure (sql_parts ++ ["WHERE " ++ String.intercalate " AND " where_clauses])
    else pure sql_parts
  let sql_parts ←
    if !plan.group_by.isEmpty then do
      let items ← plan.group_by.mapM (fun item => qcol am item.table item.column)
      pure (sql_parts ++ ["GROUP BY " ++ joinComma items])
    else pure sql_parts
  let sql_parts ←
    if !plan.having.isEmpty then
      if plan.group_by.isEmpty && plan.aggregates.isEmpty then
        Except.error "HAVING requires GROUP BY or aggregates."
      else do
        let clauses ← plan.having.mapM (buildHavingPart am)
        pure (sql_parts ++ ["HAVING " ++ String.intercalate " AND " clauses])
    else pure sql_parts
  let sql_parts ←
    if !plan.order_by.isEmpty then do
      let items ← plan.order_by.mapM (fun item => do
        let c ← qcol am item.table item.column
        pure (c ++ " " ++ pyUpper item.direction))
      pure (sql_parts ++ ["ORDER BY " ++ joinComma items])
    else pure sql_parts
  pure sql_parts

/-- `build_sql_from_plan`. The final sqlglot parse/re-serialize round trip
(an external library call used as a syntax check) is not modeled; the
returned string is the text the function assembles and hands to it. -/
def buildSqlFromPlan (plan0 : QueryPlan) : Except String String := do
  let plan := validateAndFixGroupBy plan0
  let sql_parts ← buildSqlPartsPre plan
  let sql_parts := sql_parts ++ ["LIMIT " ++ toString (sqlLimitValue plan)]
  let sql_parts :=
    match plan.offset with
    | some o => if o > 0 then sql_parts ++ ["OFFSET " ++ toString o] else sql_parts
    | none => sql_parts
  pure (String.intercalate " " sql_parts)

/-! ## Payload normalization (`_normalize_query_plan_payload`) -/

/-- Python `a or b` on JSON values. -/
def pyOrJ (a b : JValue) : JValue := if jFalsy a then b else a

/-- `dict.get(k)` with Python's `None` default. -/
def objGetD (fields : List (String × JValue)) (k : String) : JValue :=
  (assocGet fields k).getD .null

/-- Maximal `[A-Za-z_][A-Za-z0-9_]*` run (exact for this regex: the
character after a maximal run can never be an identifier character). -/
def parseIdent : List Char → Option (List Char × List Char)
  | [] => none
  | c :: rest =>
      if isIdentStart c then
        some (c :: rest.takeWhile isIdentCont, rest.dropWhile isIdentCont)
      else none

/-- `_ON_COND_RE` matched at the current position:
`ident\.ident\s*=\s*ident\.ident`. -/
def onCondAt (cs : List Char) : Option (String × String × String × String) := do
  let (lt, r1) ← parseIdent cs
  match r1 with
  | '.' :: r2 => do
      let (lc, r3) ← parseIdent r2
      match r3.dropWhile isPySpace with
      | '=' :: r5 => do
          let (rt, r7) ← parseIdent (r5.dropWhile isPySpace)
          match r7 with
          | '.' :: r8 => do
              let (rc, _) ← parseIdent r8
              pure (⟨lt⟩, ⟨lc⟩, ⟨rt⟩, ⟨rc⟩)
          | _ => none
      | _ => none
  | _ => none

/-- `re.search` for `_ON_COND_RE`: leftmost match. -/
def onCondSearch : List Char → Option (String × String × String × String)
  | [] => none
  | cs@(_ :: rest) =>
      match onCondAt cs with
      | some r => some r
      | none => onCondSearch rest

/-- Build the canonical four-field `on` object. -/
def mkOnCond (lt lc rt rc : String) : JValue :=
  .obj [("left_table", .str lt), ("left_column", .str lc),
        ("right_table", .str rt), ("right_column", .str rc)]

/-- `_normalize_join_on_condition`. -/
def normalizeJoinOnCondition (cond : JValue) : Option JValue :=
  match cond with
  | .obj c =>
      if ["left_table", "left_column", "right_table", "right_column"].all
          (fun k => assocHas c k) then
        some (mkOnCond (pyStr (objGetD c "left_table"))
          (pyStr (objGetD c "left_column")) (pyStr (objGetD c "right_table"))
          (pyStr (objGetD c "right_column")))
      else
        let raw := pyOrJ (pyOrJ (pyOrJ (objGetD c "condition") (objGetD c "on"))
          (objGetD c "expr")) (.str "")
        if !jFalsy raw then
          match onCondSearch (pyStr raw).data with
          | some (lt, lc, rt, rc) => some (mkOnCond lt lc rt rc)
          | none => none
        else none
  | .str s =>
      match onCondSearch s.data with
      | some (lt, lc, rt, rc) => some (mkOnCond lt lc rt rc)
      | none => none
  | _ => none

/-- `_normalize_joins`: keep dict joins, normalize each `on` entry,
dropping unrecognised conditions. -/
def normalizeJoins (joins : List JValue) : List JValue :=
  joins.filterMap (fun j =>
    match j with
    | .obj fields =>
        let raw_on := pyOrJ (objGetD fields "on") (.arr [])
        let raw_list := match raw_on with | .arr xs => xs | v => [v]
        let good := raw_list.filterMap normalizeJoinOnCondition
        some (.obj (assocSet fields "on" (.arr good)))
    | _ => none)

/-- The `None → []`, scalar → `[scalar]` normalization for one list key. -/
def normListKey (d : List (String × JValue)) (k : String) :
    List (String × JValue) :=
  match assocGet d k with
  | none => assocSet d k (.arr [])
  | some .null => assocSet d k (.arr [])
  | some (.arr _) => d
  | some v => assocSet d k (.arr [v])

def getList (d : List (String × JValue)) (k : String) : List JValue :=
  match assocGet d k with
  | some (.arr xs) => xs
  | _ => []

/-- Normalization of one `select` entry (dotted-string shorthand). -/
def normSelectItem (d : List (String × JValue)) (s : JValue) : JValue :=
  match s with
  | .str str =>
      match str.splitOn "." with
      | [t, c] => .obj [("table", .str t), ("column", .str c)]
      | [c] =>
          if c ≠ "*" then
            .obj [("table", (assocGet d "base_alias").getD (.str "t")),
                  ("column", .str c)]
          else s
      | _ => s
  | _ => s

/-- The `table`-defaulting step of filter normalization. -/
def normFilterFields (d fields : List (String × JValue)) :
    List (String × JValue) :=
  if !assocHas fields "table" && assocHas d "base_alias" then
    assocSet fields "table" (objGetD d "base_alias")
  else fields

/-- Normalization of one filter entry: default `table`, coerce values
(placeholders raise). -/
def normFilterItem (d : List (String × JValue)) (f : JValue) :
    Except String JValue :=
  match f with
  | .obj fields0 =>
      let fields := normFilterFields d fields0
      if assocHas fields "value" then
        match objGetD fields "value" with
        | .arr vs => do
            let vs' ← vs.mapM coerceFilterValue
            pure (.obj (assocSet fields "value" (.arr vs')))
        | v => do
            let v' ← coerceFilterValue v
            pure (.obj (assocSet fields "value" v'))
      else pure (.obj fields)
  | v => pure v

/-- Normalization of one `order_by` entry. -/
def normOrderItem (d : List (String × JValue)) (o : JValue) : JValue :=
  match o with
  | .obj fields =>
      let fields :=
        if !assocHas fields "table" && assocHas d "base_alias" then
          assocSet fields "table" (objGetD d "base_alias")
        else fields
      let fields :=
        match assocGet fields "direction" with
        | some (.str s) => assocSet fields "direction" (.str (pyLower s))
        | _ => fields
      .obj fields
  | v => v

/-- A `group_by` entry removed by normalization:
`str(item.get("column", "")).strip() == "*"` on a dict. -/
def isStarGroupBy (item : JValue) : Bool :=
  match item with
  | .obj fields => pyStrip (pyStr ((assocGet fields "column").getD (.str ""))) = "*"
  | _ => false

def planListKeys : List String :=
  ["select", "aggregates", "joins", "filters", "group_by", "having", "order_by"]

/-- `_normalize_query_plan_payload`. -/
def normalizeQueryPlanPayload (payload : List (String × JValue)) :
    Except String (List (String × JValue)) := do
  let data := planListKeys.foldl normListKey payload
  let data := assocSet data "joins" (.arr (normalizeJoins (getList data "joins")))
  let data := assocSet data "select"
    (.arr ((getList data "select").map (normSelectItem data)))
  let coerced ← (getList data "filters").mapM (normFilterItem data)
  let data := assocSet data "filters" (.arr coerced)
  let data := assocSet data "order_by"
    (.arr ((getList data "order_by").map (normOrderItem data)))
  let data := assocSet data "group_by"
    (.arr ((getList data "group_by").filter (fun item => !isStarGroupBy item)))
  let limitVal := match assocGet data "limit" with | none => JValue.int 50 | some v => v
  let data := assocSet data "limit" (.int
    (match limitVal with
     | .null => 50
     | v => match pyInt v with | some n => n | none => 50))
  let offVal := objGetD data "offset"
  let data := assocSet data "offset"
    (match offVal with
     | .null => JValue.null
     | v => match pyInt v with | some n => JValue.int n | none => JValue.null)
  pure data

/-! ## SQL AST and the customer-scope validator (`sql_validator.py`)

The sqlglot parse step is not modeled; the validator is embedded directly
over the parsed AST fragment these queries use (one SELECT with joins and
a WHERE clause, no subqueries). -/

inductive SqlExpr where
  | col (table : String) (name : String)
  | lit (text : String)
  | eq (l r : SqlExpr)
  | inE (l : SqlExpr) (args : List SqlExpr)
  | andE (l r : SqlExpr)
  | neg (e : SqlExpr)
  | paren (e : SqlExpr)
  | cast (e : SqlExpr)
deriving Repr

/-- `exp.Table`: name plus optional alias (`alias_or_name` falls back to
the name). -/
structure SqlTable where
  name : String
  aliasName : Option String := none
deriving Repr, DecidableEq

def SqlTable.aliasOrName (t : SqlTable) : String := t.aliasName.getD t.name

structure SqlJoin where
  table : SqlTable
  onE : Option SqlExpr := none
deriving Repr

/-- One parsed SELECT statement (the fragment the validator walks). -/
structure SqlSelect where
  exprs : List SqlExpr := []
  fromTable : Option SqlTable := none
  joins : List SqlJoin := []
  whereE : Option SqlExpr := none
deriving Repr

mutual
/-- All `exp.EQ` nodes inside one expression (preorder, descending into
every argument, as `find_all` does). -/
def eqNodesE : SqlExpr → List SqlExpr
  | e@(.eq l r) => e :: (eqNodesE l ++ eqNodesE r)
  | .inE l args => eqNodesE l ++ eqNodesList args
  | .andE l r => eqNodesE l ++ eqNodesE r
  | .neg e => eqNodesE e
  | .paren e => eqNodesE e
  | .cast e => eqNodesE e
  | _ => []

def eqNodesList : List SqlExpr → List SqlExpr
  | [] => []
  | e :: rest => eqNodesE e ++ eqNodesList rest
end

mutual
/-- All `exp.In` nodes inside one expression. -/
def inNodesE : SqlExpr → List SqlExpr
  | .eq l r => inNodesE l ++ inNodesE r
  | e@(.inE l args) => e :: (inNodesE l ++ inNodesList args)
  | .andE l r => inNodesE l ++ inNodesE r
  | .neg e => inNodesE e
  | .paren e => inNodesE e
  | .cast e => inNodesE e
  | _ => []

def inNodesList : List SqlExpr → List SqlExpr
  | [] => []
  | e :: rest => inNodesE e ++ inNodesList rest
end

def stmtExprs (st : SqlSelect) : List SqlExpr :=
  st.exprs ++ (st.joins.filterMap (fun j => j.onE)) ++ st.whereE.toList

def eqNodes (st : SqlSelect) : List SqlExpr := (stmtExprs st).flatMap eqNodesE

def inNodes (st : SqlSelect) : List SqlExpr := (stmtExprs st).flatMap inNodesE

/-- sqlglot's `.name` property: a Column's identifier, a Literal's text,
`""` for other nodes (whose `this` is an expression). -/
def exprName : SqlExpr → String
  | .col _ n => n
  | .lit s => s
  | _ => ""

def stmtTables (st : SqlSelect) : List SqlTable :=
  st.fromTable.toList ++ st.joins.map (fun j => j.table)

/-- The table-name set of `_table_aliases` (lower-cased, empty names
skipped), deduplicated so `len(tables)` matches the Python set size. -/
def tableNames (st : SqlSelect) : List String :=
  ((stmtTables st).filterMap (fun t =>
    let n := (pyLower t.name)
    if n = "" then none else some n)).dedup

/-- `_table_aliases(stmt).get(tname, {tname})`: each occurrence of the
table contributes its name and its alias, both lower-cased. -/
def aliasesFor (st : SqlSelect) (tname : String) : List String :=
  let l := (stmtTables st).filterMap (fun t =>
    if (pyLower t.name) = tname && t.name ≠ "" then
      some [(pyLower t.name), (pyLower t.aliasOrName)]
    else none)
  match l.flatten with
  | [] => [tname]
  | xs => xs

/-- `_column_matches`. -/
def columnMatches (e : SqlExpr) (column_name : String) (table_aliases : List String)
    (allow_unqualified : Bool) : Bool :=
  match e with
  | .col t n =>
      (pyLower n) == (pyLower column_name) &&
        (if t = "" then allow_unqualified else table_aliases.contains (pyLower t))
  | _ => false

/-- `_extract_int_literal`. -/
def extractIntLiteral : SqlExpr → Option Int
  | .paren e => extractIntLiteral e
  | .cast e => extractIntLiteral e
  | .neg e => (extractIntLiteral e).map (fun n => -n)
  | .lit s => pyIntOfString s
  | _ => none

/-- `_extract_expected_value_from_eq`. -/
def extractExpectedFromEq (e : SqlExpr) (column_name : String)
    (table_aliases : List String) (allow_unqualified : Bool) : Option Int :=
  match e with
  | .eq l r =>
      if columnMatches l column_name table_aliases allow_unqualified then
        extractIntLiteral r
      else if columnMatches r column_name table_aliases allow_unqualified then
        extractIntLiteral l
      else none
  | _ => none

/-- `_extract_expected_values_from_in`. -/
def extractExpectedFromIn (e : SqlExpr) (column_name : String)
    (table_aliases : List String) (allow_unqualified : Bool) : Option (List Int) :=
  match e with
  | .inE l args =>
      if columnMatches l column_name table_aliases allow_unqualified then
        match args.mapM extractIntLiteral with
        | some vs => if vs.isEmpty then none else some vs
        | none => none
      else none
  | _ => none

/-- The `=` loop of `_assert_expected_filter`; the flag records
`found_expected`. -/
def assertEqLoop (expected : Int) (column_name : String)
    (table_aliases : List String) (allow_unqualified : Bool) (label : String) :
    List SqlExpr → Bool → Except String Bool
  | [], found => .ok found
  | e :: rest, found =>
      match extractExpectedFromEq e column_name table_aliases allow_unqualified with
      | none => assertEqLoop expected column_name table_aliases allow_unqualified
          label rest found
      | some v =>
          if v ≠ expected then
            .error s!"Query must be scoped to {label} = {expected}."
          else assertEqLoop expected column_name table_aliases allow_unqualified
            label rest true

/-- The `IN` loop of `_assert_expected_filter`. -/
def assertInLoop (expected : Int) (column_name : String)
    (table_aliases : List String) (allow_unqualified : Bool) (label : String) :
    List SqlExpr → Bool → Except String Bool
  | [], found => .ok found
  | e :: rest, found =>
      match extractExpectedFromIn e column_name table_aliases allow_unqualified with
      | none => assertInLoop expected column_name table_aliases allow_unqualified
          label rest found
      | some vs =>
          if vs.any (fun v => v ≠ expected) then
            .error s!"Query must be scoped to {label} = {expected}."
          else assertInLoop expected column_name table_aliases allow_unqualified
            label rest true

/-- `_assert_expected_filter`. -/
def assertExpectedFilter (st : SqlSelect) (expected : Int) (column_name : String)
    (table_aliases : List String) (label : String) (allow_unqualified : Bool) :
    Except String Unit := do
  let found ← assertEqLoop expected column_name table_aliases allow_unqualified
    label (eqNodes st) false
  let found ← assertInLoop expected column_name table_aliases allow_unqualified
    label (inNodes st) found
  if !found then
    Except.error s!"Query must include a filter: {label} = {expected}."
  else pure ()

def blockedColumns : List String := ["ticket_id", "product_id", "numseq", "ccexpdate"]

/-- The left operand of an EQ node (what `eq.this` is). -/
def eqLeft : SqlExpr → SqlExpr
  | .eq l _ => l
  | e => e

def eqRight : SqlExpr → SqlExpr
  | .eq _ r => r
  | e => e

/-- `Exc.isError`. -/
def isError {ε α : Type} : Except ε α → Bool
  | .error _ => true
  | .ok _ => false

/-- Collect an error message, mirroring the `errors.append(str(exc))`. -/
def errToList : Except String Unit → List String
  | .error e => [e]
  | .ok _ => []

/-- A WHERE-clause EQ with a `ticket_id` column on either side. -/
def isTicketIdSide (e : SqlExpr) : Bool :=
  match e with
  | .col _ n => (pyLower n) == "ticket_id"
  | _ => false

/-- The WHERE-clause check of `enforce_customer_scope`: an EQ with a
`ticket_id` column on either side. -/
def whereHasTicketIdEq (st : SqlSelect) : Bool :=
  match st.whereE with
  | some w =>
      (eqNodesE w).any (fun e => isTicketIdSide (eqLeft e) || isTicketIdSide (eqRight e))
  | none => false

/-- The ticket-scope error list of `enforce_customer_scope`. -/
def enforceScopeErrs1 (st : SqlSelect) (customer_id : Option Int) : List String :=
  if (tableNames st).contains "ticket" then
    match customer_id with
    | some c => errToList (assertExpectedFilter st c "customer_id"
        (aliasesFor st "ticket") "ticket.customer_id" true)
    | none => []
  else []

/-- The customer-scope error list of `enforce_customer_scope`. -/
def enforceScopeErrs2 (st : SqlSelect) (customer_id : Option Int) : List String :=
  if (tableNames st).contains "customer" then
    match customer_id with
    | some c => errToList (assertExpectedFilter st c "id"
        (aliasesFor st "customer") "customer.id" ((tableNames st).length == 1))
    | none => []
  else []

/-- `enforce_customer_scope` (over the parsed AST; on success the SQL text
is returned unchanged, modeled as `.ok ()`). -/
def enforceCustomerScope (st : SqlSelect) (customer_id : Option Int)
    (user_id : Option Int) : Except String Unit :=
  match (eqNodes st).find? (fun e =>
      blockedColumns.contains (pyLower (exprName (eqLeft e)))) with
  | some e =>
      Except.error s!"Invalid filter on {pyLower (exprName (eqLeft e))}. Only customer_id is allowed for scoping."
  | none =>
    if (tableNames st).contains "ticket_item" && !(tableNames st).contains "ticket" then
      Except.error "Queries using order items must join ticket and filter by customer_id."
    else if whereHasTicketIdEq st then
      Except.error "Invalid filter: ticket_id cannot be used directly. Use customer_id instead."
    else if (tableNames st).contains "ticket" && customer_id.isNone then
      Except.error "Missing customer context for ticket query."
    else if (tableNames st).contains "customer" && customer_id.isNone then
      Except.error "Missing customer context for customer query."
    else if !(enforceScopeErrs1 st customer_id ++ enforceScopeErrs2 st customer_id).isEmpty then
      Except.error (String.intercalate " | "
        (enforceScopeErrs1 st customer_id ++ enforceScopeErrs2 st customer_id))
    else Except.ok ()

/-! ## The generate/validate retry loop of `run_sql_agent`
(`sql_agent_v2.py`, step 2) -/

/-- Outcome of one loop iteration's try block: the generator call plus the
scope-injection/compile/validate/firewall pipeline. `planError` stands for
a caught `QueryPlanError`/`SqlValidationError`, `unexpected` for any
other exception. -/
inductive AttemptOutcome where
  | ok (sql : String)
  | planError (msg : String)
  | unexpected (msg : String)

inductive GenLoopResult where
  | success (sql : String)
  | terminalError (msg : String)
  | unexpectedError (msg : String)
deriving Repr, DecidableEq

/-- `max_correct_attempts` in `run_sql_agent`. -/
def maxCorrectAttempts : Nat := 2

/-- The `for attempt in range(max_correct_attempts + 1)` generate/validate
loop. `outcome attempt lastError` is the environment: what the attempt's
try block produces given the carried failure reason (`None` on the first
attempt). Returns the loop result and the number of generator invocations. -/
def genLoopGo (outcome : Nat → Option String → AttemptOutcome) (maxA : Nat) :
    Nat → Nat → Option String → Nat → GenLoopResult × Nat
  | 0, _, lastE, calls => (.terminalError (lastE.getD ""), calls)
  | remaining + 1, attempt, lastE, calls =>
      match outcome attempt lastE with
      | .ok sql => (.success sql, calls + 1)
      | .planError e =>
          if attempt == maxA then (.terminalError e, calls + 1)
          else genLoopGo outcome maxA remaining (attempt + 1) (some e) (calls + 1)
      | .unexpected e => (.unexpectedError e, calls + 1)

/-- The generate/validate loop of `run_sql_agent` with its configured
bound. -/
def runSqlAgentGenLoop (outcome : Nat → Option String → AttemptOutcome) :
    GenLoopResult × Nat :=
  genLoopGo outcome maxCorrectAttempts (maxCorrectAttempts + 1) 0 none 0

/-! ## Spec-side predicates and concrete statements used by the claims -/

/-- Worded after the spec: the AST contains an equality or IN filter on the
`customer_id` column (qualified by one of the ticket table's aliases, or
unqualified) whose integer literal equals the caller's tenant id. -/
def hasMatchingTenantFilter (st : SqlSelect) (cid : Int) : Prop :=
  (∃ e ∈ eqNodes st,
    extractExpectedFromEq e "customer_id" (aliasesFor st "ticket") true = some cid) ∨
  (∃ e ∈ inNodes st, ∃ vs,
    extractExpectedFromIn e "customer_id" (aliasesFor st "ticket") true = some vs ∧
    ∀ v ∈ vs, v = cid)

/-- A filter `inject_mandatory_scope` itself appends: a `customer_id`
equality against the tenant id, or an `id` equality against the tenant or
user id. -/
def isInjectedScopeFilter (customer_id user_id : Option Int) (f : FilterSpec) : Prop :=
  (f.column = "customer_id" ∧ f.operator = "=" ∧
    ∃ c, customer_id = some c ∧ f.value = .int c) ∨
  (f.column = "id" ∧ f.operator = "=" ∧
    ((∃ c, customer_id = some c ∧ f.value = .int c) ∨
     (∃ u, user_id = some u ∧ f.value = .int u)))

/-- A ticket plan with one non-`customer_id` filter, used as a concrete
input for the scope injector. -/
def samplePlanTicket : QueryPlan :=
  { base_table := "ticket", base_alias := some "t",
    filters := [{ table := "t", column := "status", operator := "=",
                  value := .str "open" }] }

/-- `SELECT t.id FROM ticket t WHERE t.customer_id = 7 AND
t.customer_id = 8`: contains a filter matching tenant 7 and another one
with a different literal. -/
def stBothFilters : SqlSelect :=
  { exprs := [.col "t" "id"],
    fromTable := some { name := "ticket", aliasName := some "t" },
    joins := [],
    whereE := some (.andE (.eq (.col "t" "customer_id") (.lit "7"))
                          (.eq (.col "t" "customer_id") (.lit "8"))) }

/-- `SELECT t.id FROM ticket t JOIN ticket_item ti ON ti.ticket_id = t.id
WHERE t.customer_id = 7`: the join condition has `ticket_id` as the left
operand. -/
def stJoinBad : SqlSelect :=
  { exprs := [.col "t" "id"],
    fromTable := some { name := "ticket", aliasName := some "t" },
    joins := [{ table := { name := "ticket_item", aliasName := some "ti" },
                onE := some (.eq (.col "ti" "ticket_id") (.col "t" "id")) }],
    whereE := some (.eq (.col "t" "customer_id") (.lit "7")) }

/-- The same query with the join condition reversed:
`... ON t.id = ti.ticket_id ...`. -/
def stJoinGood : SqlSelect :=
  { exprs := [.col "t" "id"],
    fromTable := some { name := "ticket", aliasName := some "t" },
    joins := [{ table := { name := "ticket_item", aliasName := some "ti" },
                onE := some (.eq (.col "t" "id") (.col "ti" "ticket_id")) }],
    whereE := some (.eq (.col "t" "customer_id") (.lit "7")) }

/-! # Theorems -/

/-! ## Shared helper lemmas -/

theorem getD_hex_mem (n : Nat) : hexDigitChars.getD n '0' ∈ hexDigitChars := by
  by_cases h : n < hexDigitChars.length
  · rw [List.getD_eq_getElem _ _ h]
    exact List.getElem_mem h
  · rw [List.getD_eq_default]
    · decide
    · omega

theorem md5Hex_chars (s : String) :
    ∀ ch ∈ (md5HexOfString s).data, ch ∈ hexDigitChars := by
  intro ch hch
  simp only [md5HexOfString] at hch
  rcases List.mem_flatMap.mp hch with ⟨b, _, hb⟩
  simp only [byteToHex, List.mem_cons, List.not_mem_nil, or_false] at hb
  rcases hb with h | h
  · exact h ▸ getD_hex_mem _
  · exact h ▸ getD_hex_mem _

theorem containsSub_colon (m : List Char) (h : List Char) (hh : ':' ∉ h) :
    containsSub (':' :: m) h = false := by
  induction h with
  | nil => rfl
  | cons c t ih =>
      have hc : (':' == c) = false :=
        beq_eq_false_iff_ne.mpr (fun e => hh (e ▸ List.mem_cons_self c t))
      have hnt : ':' ∉ t := fun ht => hh (List.mem_cons_of_mem c ht)
      simp [containsSub, List.isPrefixOf, hc, ih hnt]

theorem key_no_colon_needle (sql : String) (cid : Int) (m : List Char) :
    containsSub (':' :: m) (getCacheKey sql cid).data = false := by
  apply containsSub_colon
  intro hmem
  have := md5Hex_chars _ _ hmem
  revert this
  decide

/-! ## C2 — cache purge for one tenant -/

/-- C2: `clear_for_customer` is a no-op on every populated cache: cache
keys are MD5 hex digests, which never contain the `":{customer_id}"`
needle, so after `set(sql, cid, rows)` followed by
`clear_for_customer(cid)`, `get(sql, cid)` still returns the rows — the
claimed removal of the tenant's entries never happens. -/
theorem cache_clear_for_customer_keeps_entries {α : Type} (sql : String)
    (cid : Int) (rows : α) (t : Nat) :
    (cacheGet (clearForCustomer (cacheSet (mkCache α) sql cid rows t) cid)
      sql cid t).1 = some rows := by
  have hkey := key_no_colon_needle sql cid (toString cid).data
  simp [cacheGet, cacheSet, clearForCustomer, mkCache, assocSet, lookupEntry,
    setEntry, oldestKey, removeKey, String.data_append, hkey]

/-! ## C6 — cross-tenant cache isolation -/

/-- C6: one tenant's cache writes are invisible to any other tenant's
reads: for distinct tenants whose cache keys differ (the hash being
injective on the two combined strings), `set(sql, A, rows)` followed by
`get(sql, B)` returns `None` even for identical SQL text. -/
theorem cache_cross_tenant_invisible {α : Type} (sql : String) (a b : Int)
    (rows : α) (t : Nat) (hab : a ≠ b)
    (hkey : getCacheKey sql a ≠ getCacheKey sql b) :
    (cacheGet (cacheSet (mkCache α) sql a rows t) sql b t).1 = none := by
  simp [cacheGet, cacheSet, mkCache, setEntry, lookupEntry, oldestKey,
    removeKey, hkey]

set_option maxRecDepth 8000 in
/-- C6 witness at concrete inputs (tenants 1 and 2, `"SELECT 1"`). -/
theorem cache_cross_tenant_invisible_witness :
    (cacheGet (cacheSet (mkCache (List Nat)) "SELECT 1" 1 [5] 0)
      "SELECT 1" 2 0).1 = none :=
  cache_cross_tenant_invisible "SELECT 1" 1 2 [5] 0 (by decide) (by decide)

/-! ## C3 — bounded retries in the generate/validate loop -/

/-- C3 counterexample: when every attempt fails validation, the
generate/validate loop of `run_sql_agent` invokes the generator three
times, refuting "the generator is invoked at most twice for any input". -/
theorem gen_loop_three_invocations :
    (runSqlAgentGenLoop (fun _ _ => .planError "plan rejected")).2 = 3 ∧
    ¬ ((runSqlAgentGenLoop (fun _ _ => .planError "plan rejected")).2 ≤ 2) := by
  decide

/-- C3 (amended): on validation/firewall failure the generate/validate
loop performs at most two extra plan-generation attempts carrying the
failure reason — the generator is invoked at most three times
(`max_correct_attempts = 2`). -/
theorem gen_loop_call_bound (outcome : Nat → Option String → AttemptOutcome) :
    (runSqlAgentGenLoop outcome).2 ≤ 3 := by
  have key : ∀ remaining attempt lastE calls,
      (genLoopGo outcome maxCorrectAttempts remaining attempt lastE calls).2 ≤
        calls + remaining := by
    intro remaining
    induction remaining with
    | zero => intro attempt lastE calls; simp [genLoopGo]
    | succ n ih =>
        intro attempt lastE calls
        simp only [genLoopGo]
        cases outcome attempt lastE with
        | ok s => simp
        | planError e =>
            by_cases h : attempt == maxCorrectAttempts
            · simp [h]
            · simp only [h, if_neg]
              calc (genLoopGo outcome maxCorrectAttempts n (attempt + 1)
                      (some e) (calls + 1)).2 ≤ (calls + 1) + n := ih _ _ _
                _ ≤ calls + (n + 1) := by omega
        | unexpected e => simp
  have h3 := key 3 0 none 0
  simpa [runSqlAgentGenLoop, maxCorrectAttempts] using h3

end FashionChatbot

namespace FashionChatbot

/-! ## Association-list and mapM helper lemmas -/

theorem assocGet_assocSet_same {β : Type} (d : List (String × β)) (k : String) (v : β) :
    assocGet (assocSet d k v) k = some v := by
  induction d with
  | nil => simp [assocSet, assocGet]
  | cons hd tl ih =>
      by_cases h : hd.1 = k
      · simp [assocSet, assocGet, h]
      · simp [assocSet, assocGet, h, ih]

theorem assocGet_assocSet_ne {β : Type} (d : List (String × β)) (k k' : String) (v : β)
    (h : k' ≠ k) :
    assocGet (assocSet d k v) k' = assocGet d k' := by
  have hne : ¬ (k = k') := fun e => h e.symm
  induction d with
  | nil => simp [assocSet, assocGet, hne]
  | cons hd tl ih =>
      by_cases hh : hd.1 = k
      · simp [assocSet, assocGet, hh, hne]
      · simp only [assocSet, if_neg hh]
        by_cases hk' : hd.1 = k'
        · simp [assocGet, hk']
        · simp [assocGet, hk', ih]

theorem assocGet_normListKey_ne (d : List (String × JValue)) (k k' : String)
    (h : k' ≠ k) : assocGet (normListKey d k) k' = assocGet d k' := by
  unfold normListKey
  cases hg : assocGet d k with
  | none => exact assocGet_assocSet_ne d k k' _ h
  | some v =>
      cases v <;> simp [assocGet_assocSet_ne d k k' _ h]

theorem assocGet_foldl_normListKey (ks : List String) (d : List (String × JValue))
    (k' : String) (h : k' ∉ ks) :
    assocGet (ks.foldl normListKey d) k' = assocGet d k' := by
  induction ks generalizing d with
  | nil => rfl
  | cons k rest ih =>
      have hk : k' ≠ k := fun e => h (e ▸ List.mem_cons_self k rest)
      have hrest : k' ∉ rest := fun hm => h (List.mem_cons_of_mem k hm)
      simp only [List.foldl_cons]
      rw [ih _ hrest, assocGet_normListKey_ne d k k' hk]

theorem mapM_error_of_mem {α β : Type} (g : α → Except String β) (l : List α)
    (x : α) (hx : x ∈ l) (he : isError (g x) = true) :
    isError (l.mapM g) = true := by
  induction l with
  | nil => exact absurd hx (List.not_mem_nil x)
  | cons a as ih =>
      rw [List.mapM_cons]
      cases hga : g a with
      | error e => simp [bind, Except.bind, hga, isError]
      | ok b =>
          rcases List.mem_cons.mp hx with hxa | hxs
          · rw [hxa] at he
            rw [hga] at he
            exact absurd he (by simp [isError])
          · have := ih hxs
            cases hm : as.mapM g with
            | error e => simp [bind, Except.bind, hga, hm, isError, pure, Except.pure]
            | ok ys =>
                rw [hm] at this
                exact absurd this (by simp [isError])

theorem contains_of_mem {α : Type} [BEq α] [LawfulBEq α] {a : α} {l : List α}
    (h : a ∈ l) : l.contains a = true := by
  simp [List.contains, List.elem_eq_mem, h]

theorem mem_of_contains {α : Type} [BEq α] [LawfulBEq α] {a : α} {l : List α}
    (h : l.contains a = true) : a ∈ l := by
  simpa [List.contains, List.elem_eq_mem] using h

/-! ## C10 — non-integer limit/offset fall back to defaults -/

/-- C10: a payload whose `limit` or `offset` is not convertible to an
integer never fails on that account: normalization replaces the limit
with the default 50 and the offset with `None` before model validation. -/
theorem normalize_limit_offset (payload : List (String × JValue)) (v w : JValue)
    (data' : List (String × JValue))
    (hl : assocGet payload "limit" = some v) (hv : pyInt v = none)
    (ho : assocGet payload "offset" = some w) (hw : pyInt w = none)
    (h : normalizeQueryPlanPayload payload = .ok data') :
    assocGet data' "limit" = some (.int 50) ∧
    assocGet data' "offset" = some .null := by
  simp only [normalizeQueryPlanPayload, bind, Except.bind, pure, Except.pure] at h
  split at h
  next e hm =>
    exact Except.noConfusion h
  next coerced hm =>
    injection h with h
    subst h
    have h0 : assocGet (planListKeys.foldl normListKey payload) "limit" = some v := by
      rw [assocGet_foldl_normListKey _ _ _ (by decide)]; exact hl
    have o0 : assocGet (planListKeys.foldl normListKey payload) "offset" = some w := by
      rw [assocGet_foldl_normListKey _ _ _ (by decide)]; exact ho
    constructor
    · rw [assocGet_assocSet_ne _ _ _ _ (by decide), assocGet_assocSet_same]
      congr 1
      rw [assocGet_assocSet_ne _ _ _ _ (by decide),
        assocGet_assocSet_ne _ _ _ _ (by decide),
        assocGet_assocSet_ne _ _ _ _ (by decide),
        assocGet_assocSet_ne _ _ _ _ (by decide),
        assocGet_assocSet_ne _ _ _ _ (by decide), h0]
      cases v with
      | null => rfl
      | int n => exact absurd hv (by simp [pyInt])
      | bool b => exact absurd hv (by simp [pyInt])
      | str s => simp only [pyInt] at hv; simp [pyInt, hv]
      | arr xs => rfl
      | obj fs => rfl
    · rw [assocGet_assocSet_same]
      simp only [objGetD]
      rw [assocGet_assocSet_ne _ _ _ _ (by decide),
        assocGet_assocSet_ne _ _ _ _ (by decide),
        assocGet_assocSet_ne _ _ _ _ (by decide),
        assocGet_assocSet_ne _ _ _ _ (by decide),
        assocGet_assocSet_ne _ _ _ _ (by decide),
        assocGet_assocSet_ne _ _ _ _ (by decide), o0]
      simp only [Option.getD]
      cases w with
      | null => rfl
      | int n => exact absurd hw (by simp [pyInt])
      | bool b => exact absurd hw (by simp [pyInt])
      | str s => simp only [pyInt] at hw; simp [pyInt, hw]
      | arr xs => rfl
      | obj fs => rfl

/-- C10 witness at the concrete payload `{"limit": "abc", "offset": "abc"}`. -/
theorem normalize_limit_offset_witness :
    ∃ data', normalizeQueryPlanPayload
        [("limit", .str "abc"), ("offset", .str "abc")] = .ok data' ∧
      assocGet data' "limit" = some (.int 50) ∧
      assocGet data' "offset" = some .null := by
  obtain ⟨d, hd⟩ : ∃ d, normalizeQueryPlanPayload
      [("limit", .str "abc"), ("offset", .str "abc")] = .ok d := ⟨_, rfl⟩
  exact ⟨d, hd,
    normalize_limit_offset [("limit", .str "abc"), ("offset", .str "abc")]
      (.str "abc") (.str "abc") d rfl rfl rfl rfl hd⟩

/-! ## C5 — LIMIT always clamped into [1, 50] -/

/-- C5: the constructed plan's limit is clamped into `[1, 50]` by the
field validator, and every successfully compiled SQL carries a `LIMIT`
clause whose value lies in `[1, 50]`. -/
theorem limit_always_clamped :
    (∀ req : Int, 1 ≤ vlimit (some req) ∧ vlimit (some req) ≤ 50) ∧
    (∀ (plan : QueryPlan) (sql : String), buildSqlFromPlan plan = .ok sql →
      ∃ pre tail,
        sql = String.intercalate " "
          (pre ++ ("LIMIT " ++ toString (sqlLimitValue (validateAndFixGroupBy plan))) :: tail) ∧
        1 ≤ sqlLimitValue (validateAndFixGroupBy plan) ∧
        sqlLimitValue (validateAndFixGroupBy plan) ≤ 50) := by
  have hlo : ∀ p : QueryPlan, 1 ≤ sqlLimitValue p := by
    intro p
    simp only [sqlLimitValue]
    exact le_max_left _ _
  have hhi : ∀ p : QueryPlan, sqlLimitValue p ≤ 50 := by
    intro p
    simp only [sqlLimitValue]
    exact max_le (by norm_num) (min_le_right _ _)
  constructor
  · intro req
    simp only [vlimit]
    constructor
    · exact le_max_left _ _
    · exact max_le (by norm_num) (min_le_right _ _)
  · intro plan sql h
    simp only [buildSqlFromPlan, bind, Except.bind, pure, Except.pure] at h
    split at h
    next e hm => exact Except.noConfusion h
    next parts hm =>
      injection h with h
      subst h
      cases ho : (validateAndFixGroupBy plan).offset with
      | none =>
          exact ⟨parts, [], rfl, hlo _, hhi _⟩
      | some o =>
          by_cases ho2 : o > 0
          · refine ⟨parts, ["OFFSET " ++ toString o], ?_, hlo _, hhi _⟩
            simp [ho2]
          · refine ⟨parts, [], ?_, hlo _, hhi _⟩
            simp [ho2]

/-- C5 witness: a `ticket` plan requesting limit 10000 compiles to
`SELECT * FROM ticket LIMIT 50`. -/
theorem limit_always_clamped_witness :
    ∃ pre tail, "SELECT * FROM ticket LIMIT 50" = String.intercalate " "
      (pre ++ ("LIMIT " ++ toString (sqlLimitValue (validateAndFixGroupBy
        { base_table := "ticket", limit := vlimit (some 10000) }))) :: tail) ∧
      1 ≤ sqlLimitValue (validateAndFixGroupBy
        { base_table := "ticket", limit := vlimit (some 10000) }) ∧
      sqlLimitValue (validateAndFixGroupBy
        { base_table := "ticket", limit := vlimit (some 10000) }) ≤ 50 :=
  limit_always_clamped.2 { base_table := "ticket", limit := vlimit (some 10000) }
    "SELECT * FROM ticket LIMIT 50" (by rfl)

/-! ## C4 — placeholder filter values are rejected during normalization -/

theorem coerce_placeholder_error (s : String)
    (hs : rePlaceholder (pyStrip s).data = true) :
    isError (coerceFilterValue (.str s)) = true := by
  simp [coerceFilterValue, hs, isError]

theorem assocGet_normFilterFields_value (d fields : List (String × JValue)) :
    assocGet (normFilterFields d fields) "value" = assocGet fields "value" := by
  unfold normFilterFields
  split
  · exact assocGet_assocSet_ne _ _ _ _ (by decide)
  · rfl

theorem normFilterItem_error (d : List (String × JValue))
    (fields : List (String × JValue)) (s : String)
    (hval : assocGet fields "value" = some (.str s) ∨
      ∃ vs, assocGet fields "value" = some (.arr vs) ∧ JValue.str s ∈ vs)
    (hs : rePlaceholder (pyStrip s).data = true) :
    isError (normFilterItem d (.obj fields)) = true := by
  have hcv := coerce_placeholder_error s hs
  have hFv := assocGet_normFilterFields_value d fields
  have hvsome : (assocGet fields "value").isSome = true := by
    rcases hval with hstr | ⟨vs, harr, hmem⟩
    · rw [hstr]; rfl
    · rw [harr]; rfl
  have hhas : assocHas (normFilterFields d fields) "value" = true := by
    unfold assocHas
    rw [hFv]
    exact hvsome
  simp only [normFilterItem]
  split
  next hcond =>
    simp only [objGetD]
    rw [hFv]
    rcases hval with hstr | ⟨vs, harr, hmem⟩
    · rw [hstr]
      simp only [Option.getD]
      cases hc : coerceFilterValue (.str s) with
      | error e => simp [bind, Except.bind, hc, isError]
      | ok v => rw [hc] at hcv; exact absurd hcv (by simp [isError])
    · rw [harr]
      simp only [Option.getD]
      have hme := mapM_error_of_mem coerceFilterValue vs (.str s) hmem hcv
      cases hm : vs.mapM coerceFilterValue with
      | error e => simp [bind, Except.bind, hm, isError]
      | ok ys => rw [hm] at hme; exact absurd hme (by simp [isError])
  next hcond => exact absurd hhas hcond

theorem assocGet_normListKey_arr (d : List (String × JValue)) (k k' : String)
    (xs : List JValue) (h : assocGet d k = some (.arr xs)) :
    assocGet (normListKey d k') k = some (.arr xs) := by
  by_cases he : k = k'
  · subst he
    unfold normListKey
    rw [h]
    exact h
  · rw [assocGet_normListKey_ne d k' k (fun e => he e)]
    exact h

theorem assocGet_foldl_normListKey_arr (ks : List String)
    (d : List (String × JValue)) (k : String) (xs : List JValue)
    (h : assocGet d k = some (.arr xs)) :
    assocGet (ks.foldl normListKey d) k = some (.arr xs) := by
  induction ks generalizing d with
  | nil => exact h
  | cons k1 rest ih =>
      simp only [List.foldl_cons]
      exact ih _ (assocGet_normListKey_arr d k k1 xs h)

theorem getList_assocSet_ne (d : List (String × JValue)) (k k' : String)
    (v : JValue) (h : k' ≠ k) :
    getList (assocSet d k v) k' = getList d k' := by
  unfold getList
  rw [assocGet_assocSet_ne _ _ _ _ h]

theorem getList_filters_after_sets (d : List (String × JValue)) (v1 v2 : JValue) :
    getList (assocSet (assocSet d "joins" v1) "select" v2) "filters" =
    getList d "filters" := by
  rw [getList_assocSet_ne _ _ _ _ (by decide),
    getList_assocSet_ne _ _ _ _ (by decide)]

/-- C4: a payload containing a filter whose string value (directly or
inside a list value) matches the brace-delimited placeholder pattern makes
`_normalize_query_plan_payload` raise, so it never reaches compilation. -/
theorem placeholder_value_rejected (payload : List (String × JValue))
    (fs : List JValue) (fields : List (String × JValue)) (s : String)
    (hfs : assocGet payload "filters" = some (.arr fs))
    (hf : JValue.obj fields ∈ fs)
    (hval : assocGet fields "value" = some (.str s) ∨
      ∃ vs, assocGet fields "value" = some (.arr vs) ∧ JValue.str s ∈ vs)
    (hs : rePlaceholder (pyStrip s).data = true) :
    ∃ e, normalizeQueryPlanPayload payload = .error e := by
  have h0 : assocGet (planListKeys.foldl normListKey payload) "filters"
      = some (.arr fs) := assocGet_foldl_normListKey_arr _ _ _ _ hfs
  simp only [normalizeQueryPlanPayload, bind, Except.bind]
  split
  next e hm =>
    exact ⟨e, rfl⟩
  next coerced hm =>
    rw [getList_filters_after_sets] at hm
    rw [show getList (planListKeys.foldl normListKey payload) "filters" = fs from by
      unfold getList; rw [h0]] at hm
    have hgen : ∀ (d : List (String × JValue)) (ys : List JValue),
        fs.mapM (normFilterItem d) = .ok ys → False := by
      intro d ys hok
      have herr := mapM_error_of_mem (normFilterItem d) fs (.obj fields) hf
        (normFilterItem_error d fields s hval hs)
      rw [hok] at herr
      exact absurd herr (by simp [isError])
    exact (hgen _ _ hm).elim

/-- C4 witness at the concrete filter value `"{customer_id}"`. -/
theorem placeholder_value_rejected_witness :
    ∃ e, normalizeQueryPlanPayload
      [("filters", .arr [.obj [("table", .str "t"), ("column", .str "customer_id"),
        ("operator", .str "="), ("value", .str "{customer_id}")]])] = .error e :=
  placeholder_value_rejected _
    [.obj [("table", .str "t"), ("column", .str "customer_id"),
      ("operator", .str "="), ("value", .str "{customer_id}")]]
    [("table", .str "t"), ("column", .str "customer_id"),
      ("operator", .str "="), ("value", .str "{customer_id}")]
    "{customer_id}" rfl (List.mem_singleton.mpr rfl) (Or.inl rfl) (by decide)

/-! ## C8 — idempotence of the aggregate/group-by corrector -/

theorem missingGB_append (plan : QueryPlan) (M : List GroupByField)
    (hsub : ∀ col ∈ nonAggCols plan,
      (pyLower col.table, pyLower col.column) ∈ existingGB plan ∨ col ∈ M) :
    missingGB { plan with group_by := plan.group_by ++ M } = [] := by
  unfold missingGB
  rw [List.filter_eq_nil_iff]
  intro col hcol
  have hcol' : col ∈ nonAggCols plan := hcol
  have hmem : (pyLower col.table, pyLower col.column) ∈
      existingGB { plan with group_by := plan.group_by ++ M } := by
    show _ ∈ (plan.group_by ++ M).map _
    rw [List.map_append]
    rcases hsub col hcol' with h | h
    · exact List.mem_append_left _ h
    · exact List.mem_append_right _ (List.mem_map.mpr ⟨col, h, rfl⟩)
  simp [List.contains, List.elem_eq_mem]
  exact hmem

/-- C8: `validate_and_fix_group_by` is idempotent: applying it twice
yields the same plan as applying it once, on every branch. -/
theorem group_by_fix_idempotent (plan : QueryPlan) :
    validateAndFixGroupBy (validateAndFixGroupBy plan) =
      validateAndFixGroupBy plan := by
  by_cases hA : plan.aggregates.isEmpty
  · have h1 : validateAndFixGroupBy plan = plan := by
      unfold validateAndFixGroupBy
      rw [if_pos hA]
    rw [h1, h1]
  · by_cases hCS : (plan.aggregates.any
        (fun agg => agg.func == "count" || agg.func == "sum") && !plan.select.isEmpty) = true
    · have h1 : validateAndFixGroupBy plan = { plan with select := [], group_by := [] } := by
        unfold validateAndFixGroupBy
        rw [if_neg hA, if_pos hCS]
      rw [h1]
      unfold validateAndFixGroupBy
      simp [hA, nonAggCols]
    · by_cases hN : (nonAggCols plan).isEmpty
      · have h1 : validateAndFixGroupBy plan = plan := by
          unfold validateAndFixGroupBy
          rw [if_neg hA, if_neg hCS, if_pos hN]
        rw [h1, h1]
      · by_cases hM : (missingGB plan).isEmpty
        · have h1 : validateAndFixGroupBy plan = plan := by
            unfold validateAndFixGroupBy
            rw [if_neg hA, if_neg hCS, if_neg hN, if_neg (by simp [hM])]
          rw [h1, h1]
        · have h1 : validateAndFixGroupBy plan =
              { plan with group_by := plan.group_by ++ missingGB plan } := by
            unfold validateAndFixGroupBy
            rw [if_neg hA, if_neg hCS, if_neg hN, if_pos (by simp [hM])]
          rw [h1]
          have hM2 : missingGB { plan with group_by := plan.group_by ++ missingGB plan }
              = [] := by
            apply missingGB_append
            intro col hcol
            by_cases hin : (pyLower col.table, pyLower col.column) ∈ existingGB plan
            · exact Or.inl hin
            · refine Or.inr ?_
              unfold missingGB
              refine List.mem_filter.mpr ⟨hcol, ?_⟩
              cases hc : (existingGB plan).contains (pyLower col.table, pyLower col.column)
              · simp [hc]
              · exact absurd (mem_of_contains hc) hin
          unfold validateAndFixGroupBy
          simp only [hM2]
          simp [hA, hCS, hN, nonAggCols]

/-! ## C7 — scope injection drops every non-customer_id filter -/

theorem fixAliases_filters (p : QueryPlan) :
    (injectFixAliases p).filters = p.filters := by
  unfold injectFixAliases
  split <;> (dsimp only; split <;> rfl)

theorem forceBase_filters (p : QueryPlan) (T : List String) :
    (injectForceBase p T).filters = p.filters := by
  unfold injectForceBase
  split
  · dsimp only
    split
    · split <;> (dsimp only; split <;> rfl)
    · rfl
  · rfl

theorem cleanFilters_filters (p : QueryPlan) :
    (injectCleanFilters p).filters =
      p.filters.filter (fun f => pyLower f.column == "customer_id") := rfl

theorem injectTicketScope_filters (sc : QueryPlan) (T : List String)
    (A : List (String × String)) (cid : Option Int) (out : QueryPlan)
    (h : injectTicketScope sc T A cid = .ok out) :
    ∃ t1, out.filters = sc.filters ++ t1 ∧
      ∀ f ∈ t1, isInjectedScopeFilter cid none f := by
  unfold injectTicketScope at h
  split at h
  · split at h
    next => exact Except.noConfusion h
    next c =>
        dsimp only at h
        split at h
        · injection h with h
          refine ⟨[⟨(assocGet A "ticket").getD "t", "customer_id", "=", .int c⟩],
            by rw [← h], ?_⟩
          intro f hf
          rw [List.mem_singleton] at hf
          subst hf
          exact Or.inl ⟨rfl, rfl, c, rfl, rfl⟩
        · injection h with h
          exact ⟨[], by rw [← h, List.append_nil], by simp⟩
  · injection h with h
    exact ⟨[], by rw [← h, List.append_nil], by simp⟩

theorem injectCustomerScope_filters (sc : QueryPlan) (T : List String)
    (A : List (String × String)) (cid : Option Int) :
    ∃ t2, (injectCustomerScope sc T A cid).filters = sc.filters ++ t2 ∧
      ∀ f ∈ t2, isInjectedScopeFilter cid none f := by
  unfold injectCustomerScope
  split
  next c =>
    split
    · dsimp only
      split
      · refine ⟨[⟨(assocGet A "customer").getD "customer", "id", "=", .int c⟩],
          rfl, ?_⟩
        intro f hf
        rw [List.mem_singleton] at hf
        subst hf
        exact Or.inr ⟨rfl, rfl, Or.inl ⟨c, rfl, rfl⟩⟩
      · exact ⟨[], by rw [List.append_nil], by simp⟩
    · exact ⟨[], by rw [List.append_nil], by simp⟩
  next => exact ⟨[], by rw [List.append_nil], by simp⟩

theorem injectUserScope_filters (sc : QueryPlan) (T : List String)
    (A : List (String × String)) (uid : Option Int) :
    ∃ t3, (injectUserScope sc T A uid).filters = sc.filters ++ t3 ∧
      ∀ f ∈ t3, isInjectedScopeFilter none uid f := by
  unfold injectUserScope
  split
  next u =>
    split
    · dsimp only
      split
      · refine ⟨[⟨(assocGet A "user").getD "user", "id", "=", .int u⟩],
          rfl, ?_⟩
        intro f hf
        rw [List.mem_singleton] at hf
        subst hf
        exact Or.inr ⟨rfl, rfl, Or.inr ⟨u, rfl, rfl⟩⟩
      · exact ⟨[], by rw [List.append_nil], by simp⟩
    · exact ⟨[], by rw [List.append_nil], by simp⟩
  next => exact ⟨[], by rw [List.append_nil], by simp⟩

theorem isInjected_mono_cid {cid uid : Option Int} {f : FilterSpec}
    (h : isInjectedScopeFilter cid none f) : isInjectedScopeFilter cid uid f := by
  rcases h with ⟨h1, h2, c, hc, hv⟩ | ⟨h1, h2, hrest⟩
  · exact Or.inl ⟨h1, h2, c, hc, hv⟩
  · rcases hrest with ⟨c, hc, hv⟩ | ⟨u, hu, _⟩
    · exact Or.inr ⟨h1, h2, Or.inl ⟨c, hc, hv⟩⟩
    · exact absurd hu (by simp)

theorem isInjected_mono_uid {cid uid : Option Int} {f : FilterSpec}
    (h : isInjectedScopeFilter none uid f) : isInjectedScopeFilter cid uid f := by
  rcases h with ⟨h1, h2, c, hc, hv⟩ | ⟨h1, h2, hrest⟩
  · exact absurd hc (by simp)
  · rcases hrest with ⟨c, hc, _⟩ | ⟨u, hu, hv⟩
    · exact absurd hc (by simp)
    · exact Or.inr ⟨h1, h2, Or.inr ⟨u, hu, hv⟩⟩

/-- C7: on success, `inject_mandatory_scope`'s output filters are exactly
the surviving `customer_id` filters of the input followed by the scope
filters the injector itself appends. -/
theorem inject_scope_only_customer_filters (plan : QueryPlan)
    (cid uid : Option Int) (out : QueryPlan)
    (h : injectMandatoryScope plan cid uid = .ok out) :
    ∃ appended, out.filters =
      plan.filters.filter (fun f => pyLower f.column == "customer_id") ++ appended ∧
      ∀ f ∈ appended, isInjectedScopeFilter cid uid f := by
  simp only [injectMandatoryScope, bind, Except.bind] at h
  split at h
  next e hm => exact Except.noConfusion h
  next sc4 hm =>
    simp only [pure, Except.pure, Except.ok.injEq] at h
    subst h
    obtain ⟨t1, ht1, hm1⟩ := injectTicketScope_filters _ _ _ _ _ hm
    obtain ⟨t2, ht2, hm2⟩ := injectCustomerScope_filters sc4
      (tablesInPlan (injectFixAliases plan)) (buildAliasMap (injectFixAliases plan)) cid
    obtain ⟨t3, ht3, hm3⟩ := injectUserScope_filters
      (injectCustomerScope sc4 (tablesInPlan (injectFixAliases plan))
        (buildAliasMap (injectFixAliases plan)) cid)
      (tablesInPlan (injectFixAliases plan)) (buildAliasMap (injectFixAliases plan)) uid
    refine ⟨t1 ++ t2 ++ t3, ?_, ?_⟩
    · rw [ht3, ht2, ht1, cleanFilters_filters, forceBase_filters, fixAliases_filters]
      simp [List.append_assoc]
    · intro f hf
      rcases List.mem_append.mp hf with hf12 | hf3
      · rcases List.mem_append.mp hf12 with hf1 | hf2
        · exact isInjected_mono_cid (hm1 f hf1)
        · exact isInjected_mono_cid (hm2 f hf2)
      · exact isInjected_mono_uid (hm3 f hf3)

/-- C7 witness: a ticket plan with one `status` filter keeps nothing but
the injected `t.customer_id = 7` filter. -/
theorem inject_scope_only_customer_filters_witness :
    ∃ out appended, injectMandatoryScope samplePlanTicket (some 7) none = .ok out ∧
      out.filters = samplePlanTicket.filters.filter
        (fun f => pyLower f.column == "customer_id") ++ appended ∧
      ∀ f ∈ appended, isInjectedScopeFilter (some 7) none f := by
  have hout : injectMandatoryScope samplePlanTicket (some 7) none = .ok
      { samplePlanTicket with
        filters := [{ table := "t", column := "customer_id", operator := "=",
                      value := .int 7 }] } := by rfl
  obtain ⟨app, h1, h2⟩ :=
    inject_scope_only_customer_filters samplePlanTicket (some 7) none _ hout
  exact ⟨_, app, hout, h1, h2⟩

end FashionChatbot
namespace FashionChatbot

/-! ## Assert-loop characterization lemmas for the scope validator -/

theorem assertEqLoop_ok_true (expected : Int) (cn : String) (al : List String)
    (unq : Bool) (lab : String) (l : List SqlExpr) (f0 : Bool)
    (h : assertEqLoop expected cn al unq lab l f0 = .ok true) :
    f0 = true ∨ ∃ e ∈ l, extractExpectedFromEq e cn al unq = some expected := by
  induction l generalizing f0 with
  | nil =>
      unfold assertEqLoop at h
      injection h with h
      exact Or.inl h
  | cons a rest ih =>
      unfold assertEqLoop at h
      split at h
      · rcases ih _ h with h0 | ⟨e, he, hx⟩
        · exact Or.inl h0
        · exact Or.inr ⟨e, List.mem_cons_of_mem a he, hx⟩
      next v hv =>
        split at h
        · exact Except.noConfusion h
        next hne =>
          have hv7 : v = expected := by
            by_contra hc
            exact hne hc
          rcases ih _ h with _ | ⟨e, he, hx⟩
          · exact Or.inr ⟨a, List.mem_cons_self a rest, hv7 ▸ hv⟩
          · exact Or.inr ⟨e, List.mem_cons_of_mem a he, hx⟩

theorem assertEqLoop_error_of_mismatch (expected : Int) (cn : String)
    (al : List String) (unq : Bool) (lab : String) (l : List SqlExpr) (f0 : Bool)
    (h : ∃ e ∈ l, ∃ v, extractExpectedFromEq e cn al unq = some v ∧ v ≠ expected) :
    isError (assertEqLoop expected cn al unq lab l f0) = true := by
  induction l generalizing f0 with
  | nil =>
      obtain ⟨e, he, _⟩ := h
      exact absurd he (List.not_mem_nil e)
  | cons a rest ih =>
      obtain ⟨e, he, v, hv, hvne⟩ := h
      unfold assertEqLoop
      rcases List.mem_cons.mp he with rfl | hrest
      · simp [hv, hvne, isError]
      · split
        · exact ih f0 ⟨e, hrest, v, hv, hvne⟩
        next w hw =>
          split
          · rfl
          · exact ih true ⟨e, hrest, v, hv, hvne⟩

theorem assertInLoop_ok_true (expected : Int) (cn : String) (al : List String)
    (unq : Bool) (lab : String) (l : List SqlExpr) (f0 : Bool)
    (h : assertInLoop expected cn al unq lab l f0 = .ok true) :
    f0 = true ∨ ∃ e ∈ l, ∃ vs, extractExpectedFromIn e cn al unq = some vs ∧
      ∀ v ∈ vs, v = expected := by
  induction l generalizing f0 with
  | nil =>
      unfold assertInLoop at h
      injection h with h
      exact Or.inl h
  | cons a rest ih =>
      unfold assertInLoop at h
      split at h
      · rcases ih _ h with h0 | ⟨e, he, hx⟩
        · exact Or.inl h0
        · exact Or.inr ⟨e, List.mem_cons_of_mem a he, hx⟩
      next vs hvs =>
        split at h
        · exact Except.noConfusion h
        next hne =>
          have hall : ∀ v ∈ vs, v = expected := by
            intro v hv
            by_contra hc
            exact hne (List.any_eq_true.mpr ⟨v, hv, decide_eq_true hc⟩)
          rcases ih _ h with _ | ⟨e, he, hx⟩
          · exact Or.inr ⟨a, List.mem_cons_self a rest, vs, hvs, hall⟩
          · exact Or.inr ⟨e, List.mem_cons_of_mem a he, hx⟩

/-- What success of `_assert_expected_filter` guarantees. -/
theorem assertExpectedFilter_ok (st : SqlSelect) (expected : Int) (cn : String)
    (al : List String) (lab : String) (unq : Bool)
    (h : assertExpectedFilter st expected cn al lab unq = .ok ()) :
    (∃ e ∈ eqNodes st, extractExpectedFromEq e cn al unq = some expected) ∨
    (∃ e ∈ inNodes st, ∃ vs, extractExpectedFromIn e cn al unq = some vs ∧
      ∀ v ∈ vs, v = expected) := by
  simp only [assertExpectedFilter, bind, Except.bind] at h
  split at h
  next e1 hm1 => exact Except.noConfusion h
  next f1 hm1 =>
    split at h
    next e2 hm2 => exact Except.noConfusion h
    next f2 hm2 =>
      split at h
      · exact Except.noConfusion h
      next hcond =>
        have hf2 : f2 = true := by
          cases f2
          · exact absurd rfl hcond
          · rfl
        subst hf2
        rcases assertInLoop_ok_true _ _ _ _ _ _ _ hm2 with hf1 | hin
        · subst hf1
          rcases assertEqLoop_ok_true _ _ _ _ _ _ _ hm1 with h0 | heq
          · exact absurd h0 (by simp)
          · exact Or.inl heq
        · exact Or.inr hin

/-- `_assert_expected_filter` fails when no matching filter exists. -/
theorem assertExpectedFilter_error_of_not_found (st : SqlSelect) (expected : Int)
    (cn : String) (al : List String) (lab : String) (unq : Bool)
    (h : ¬ ((∃ e ∈ eqNodes st, extractExpectedFromEq e cn al unq = some expected) ∨
      (∃ e ∈ inNodes st, ∃ vs, extractExpectedFromIn e cn al unq = some vs ∧
        ∀ v ∈ vs, v = expected))) :
    isError (assertExpectedFilter st expected cn al lab unq) = true := by
  cases hr : assertExpectedFilter st expected cn al lab unq with
  | error e => rfl
  | ok u =>
      cases u
      exact absurd (assertExpectedFilter_ok st expected cn al lab unq hr) h

/-- `_assert_expected_filter` fails when a mismatched equality exists. -/
theorem assertExpectedFilter_error_of_mismatch (st : SqlSelect) (expected : Int)
    (cn : String) (al : List String) (lab : String) (unq : Bool)
    (h : ∃ e ∈ eqNodes st, ∃ v, extractExpectedFromEq e cn al unq = some v ∧
      v ≠ expected) :
    isError (assertExpectedFilter st expected cn al lab unq) = true := by
  simp only [assertExpectedFilter, bind, Except.bind]
  have herr := assertEqLoop_error_of_mismatch expected cn al unq lab (eqNodes st)
    false h
  cases hm : assertEqLoop expected cn al unq lab (eqNodes st) false with
  | error e => rfl
  | ok f => rw [hm] at herr; exact absurd herr (by simp [isError])

/-! ## `enforce_customer_scope` structure lemmas -/

theorem errToList_nil_iff (x : Except String Unit) :
    errToList x = [] ↔ x = .ok () := by
  cases x with
  | error e => simp [errToList]
  | ok u => cases u; simp [errToList]

/-- Success of `enforce_customer_scope` forces the ticket-scope assertion
to succeed. -/
theorem enforce_ok_ticket_assert (st : SqlSelect) (c : Int) (uid : Option Int)
    (hticket : (tableNames st).contains "ticket" = true)
    (h : enforceCustomerScope st (some c) uid = .ok ()) :
    assertExpectedFilter st c "customer_id" (aliasesFor st "ticket")
      "ticket.customer_id" true = .ok () := by
  unfold enforceCustomerScope at h
  split at h
  next => exact Except.noConfusion h
  next hfind =>
    split at h
    · exact Except.noConfusion h
    · split at h
      · exact Except.noConfusion h
      · split at h
        · exact Except.noConfusion h
        · split at h
          · exact Except.noConfusion h
          · split at h
            · exact Except.noConfusion h
            next hcond =>
              simp only [Bool.not_eq_true', Bool.not_eq_false] at hcond
              have h1 := (List.append_eq_nil.mp (List.isEmpty_iff.mp hcond)).1
              unfold enforceScopeErrs1 at h1
              rw [if_pos hticket] at h1
              exact (errToList_nil_iff _).mp h1

/-- Any failure of the ticket-scope assertion makes
`enforce_customer_scope` fail. -/
theorem enforce_error_of_ticket_assert_error (st : SqlSelect) (c : Int)
    (uid : Option Int) (hticket : (tableNames st).contains "ticket" = true)
    (ha : isError (assertExpectedFilter st c "customer_id"
      (aliasesFor st "ticket") "ticket.customer_id" true) = true) :
    isError (enforceCustomerScope st (some c) uid) = true := by
  unfold enforceCustomerScope
  split
  next => rfl
  next hfind =>
    split
    · rfl
    · split
      · rfl
      · split
        · rfl
        · split
          · rfl
          · split
            · rfl
            next hcond =>
              exfalso
              simp only [Bool.not_eq_true', Bool.not_eq_false] at hcond
              have h1 := (List.append_eq_nil.mp (List.isEmpty_iff.mp hcond)).1
              unfold enforceScopeErrs1 at h1
              rw [if_pos hticket] at h1
              rw [(errToList_nil_iff _).mp h1] at ha
              exact absurd ha (by simp [isError])

/-! ## C1 — the tenant filter characterization of `enforce_customer_scope` -/

/-- C1 counterexample to the claim as stated: this statement contains an
equality filter on `customer_id` whose integer literal equals the tenant
id 7, yet `enforce_customer_scope` raises (the second filter carries the
literal 8), so "returns the SQL unchanged if and only if such a filter is
present" is false. -/
theorem enforce_scope_iff_counterexample :
    hasMatchingTenantFilter stBothFilters 7 ∧
    isError (enforceCustomerScope stBothFilters (some 7) none) = true := by
  constructor
  · exact Or.inl ⟨.eq (.col "t" "customer_id") (.lit "7"),
      List.mem_cons_self _ _, rfl⟩
  · rfl

/-- C1 (amended): for every statement referencing the ticket table and
tenant id, `enforce_customer_scope` succeeds only if a `customer_id`
equality/IN filter with the tenant's literal exists; it raises when no
such filter exists, and it raises when any matching equality carries a
different literal. -/
theorem enforce_scope_tenant_filter (st : SqlSelect) (cid : Int)
    (uid : Option Int) (hticket : (tableNames st).contains "ticket" = true) :
    (enforceCustomerScope st (some cid) uid = .ok () →
      hasMatchingTenantFilter st cid) ∧
    (¬ hasMatchingTenantFilter st cid →
      isError (enforceCustomerScope st (some cid) uid) = true) ∧
    ((∃ e ∈ eqNodes st, ∃ v, extractExpectedFromEq e "customer_id"
        (aliasesFor st "ticket") true = some v ∧ v ≠ cid) →
      isError (enforceCustomerScope st (some cid) uid) = true) := by
  refine ⟨?_, ?_, ?_⟩
  · intro h
    exact assertExpectedFilter_ok st cid "customer_id" (aliasesFor st "ticket")
      "ticket.customer_id" true (enforce_ok_ticket_assert st cid uid hticket h)
  · intro hnot
    exact enforce_error_of_ticket_assert_error st cid uid hticket
      (assertExpectedFilter_error_of_not_found st cid _ _ _ _ hnot)
  · intro hmis
    exact enforce_error_of_ticket_assert_error st cid uid hticket
      (assertExpectedFilter_error_of_mismatch st cid _ _ _ _ hmis)

/-- C1 witness: the correctly scoped join query is accepted, so it indeed
contains the matching tenant filter. -/
theorem enforce_scope_tenant_filter_witness :
    hasMatchingTenantFilter stJoinGood 7 :=
  (enforce_scope_tenant_filter stJoinGood 7 none (by decide)).1 (by rfl)

/-! ## C9 — blocked internal-id columns as left operands of equalities -/

/-- C9: `enforce_customer_scope` raises whenever the left operand of any
equality node anywhere in the statement (joins included) is a column named
ticket_id/product_id/numseq/ccexpdate; concretely,
`ON ti.ticket_id = t.id` is rejected while `ON t.id = ti.ticket_id` is
accepted. -/
theorem enforce_blocked_left_operand :
    (∀ (st : SqlSelect) (cid uid : Option Int),
      (∃ e ∈ eqNodes st, ∃ t n, eqLeft e = SqlExpr.col t n ∧
        blockedColumns.contains (pyLower n) = true) →
      isError (enforceCustomerScope st cid uid) = true) ∧
    enforceCustomerScope stJoinBad (some 7) none =
      .error "Invalid filter on ticket_id. Only customer_id is allowed for scoping." ∧
    enforceCustomerScope stJoinGood (some 7) none = .ok () := by
  refine ⟨?_, rfl, rfl⟩
  rintro st cid uid ⟨e, he, t, n, hleft, hblk⟩
  have hsome : ((eqNodes st).find? (fun e =>
      blockedColumns.contains (pyLower (exprName (eqLeft e))))).isSome := by
    rw [List.find?_isSome]
    refine ⟨e, he, ?_⟩
    rw [hleft]
    exact hblk
  unfold enforceCustomerScope
  cases hf : (eqNodes st).find? (fun e =>
      blockedColumns.contains (pyLower (exprName (eqLeft e)))) with
  | none => rw [hf] at hsome; exact absurd hsome (by simp)
  | some e' => rfl

/-- C9 witness at the rejected join condition. -/
theorem enforce_blocked_left_operand_witness :
    isError (enforceCustomerScope stJoinBad (some 7) none) = true :=
  enforce_blocked_left_operand.1 stJoinBad (some 7) none
    ⟨.eq (.col "ti" "ticket_id") (.col "t" "id"), List.mem_cons_self _ _,
      "ti", "ticket_id", rfl, by decide⟩

end FashionChatbot
